import Mathlib

/-!
# PNAT network-state reconciliation engine: a shallow embedding

This file embeds the core of the PNAT Go program (network validator,
declarative model, NAT/DHCP compilers and reconcilers, derived IP-usage
view, and the HTTP mutation handlers) as executable Lean definitions and
proves properties of the embedded code.

Conventions:
* IPv4 addresses are represented by their unsigned 32-bit value as a `Nat`
  (the Go code converts `net.IP` to `uint32` via big-endian octets).
* Go strings are Lean `String`s; byte-wise Go parsing loops are embedded as
  structural recursion over `String.data` (`List Char`), which agrees with
  the Go byte loops on ASCII input.
* Fallible Go functions returning `(T, error)` become `Option`/`Except`.
* Filesystem and external-process effects are embedded as explicit state
  passing with Boolean success oracles for the OS calls.
-/

namespace PNAT

/-! ## Network validator (Go file `part_003`)

`net.ParseIP(s).To4()` for dotted-quad text: four decimal fields separated
by `'.'`, each of value ≤ 255 with no leading zero (Go rejects leading
zeros since 1.17). We embed the dotted-quad IPv4 case; the parse result is
the 32-bit value. -/

/-- Split a character list on a separator character, like Go's
`strings.Split` restricted to a one-byte separator. -/
def splitOnChar (sep : Char) : List Char → List (List Char)
  | [] => [[]]
  | c :: cs =>
    match splitOnChar sep cs with
    | [] => [[c]]
    | f :: fs => if c = sep then [] :: f :: fs else (c :: f) :: fs

/-- Parse one dotted-quad field: nonempty, all digits, no leading zero,
value at most 255 (Go `parseIPv4`/`dtoi` behaviour). -/
def parseOctet (f : List Char) : Option Nat :=
  match f with
  | [] => none
  | c :: cs =>
    if ¬ (c :: cs).all Char.isDigit then none
    else if c = '0' ∧ cs ≠ [] then none
    else
      let v := (c :: cs).foldl (fun acc d => acc * 10 + (d.toNat - 48)) 0
      if v ≤ 255 then some v else none

/-- `parseIPv4` from the source: dotted-quad IPv4 text to its unsigned
32-bit value. -/
def parseIPv4 (s : String) : Option Nat :=
  match splitOnChar '.' s.data with
  | [a, b, c, d] => do
    let x ← parseOctet a
    let y ← parseOctet b
    let z ← parseOctet c
    let w ← parseOctet d
    pure (((x * 256 + y) * 256 + z) * 256 + w)
  | _ => none

/-- An IPv4 network as kept by `parseCIDRv4`: the (unmasked) address from
the CIDR text plus the prefix length. Go's `ParseCIDR` masks are always
contiguous `/n` masks. -/
structure IPNet where
  ip : Nat
  ones : Nat
deriving DecidableEq

/-- Parse the prefix-length field of a CIDR: decimal digits (Go's `dtoi`,
which does not reject leading zeros here), value at most 32. -/
def parsePrefixLen (f : List Char) : Option Nat :=
  match f with
  | [] => none
  | c :: cs =>
    if ¬ (c :: cs).all Char.isDigit then none
    else
      let v := (c :: cs).foldl (fun acc d => acc * 10 + (d.toNat - 48)) 0
      if v ≤ 32 then some v else none

/-- `parseCIDRv4` from the source: `a.b.c.d/n` text to an `IPNet`; the
stored address is the unmasked one (`ipnet.IP = ip.To4()` in the source). -/
def parseCIDRv4 (s : String) : Option IPNet :=
  match splitOnChar '/' s.data with
  | [a, m] => do
    let ip ← parseIPv4 ⟨a⟩
    let ones ← parsePrefixLen m
    pure ⟨ip, ones⟩
  | _ => none

/-- `x & mask` for the contiguous `/ones` mask, on 32-bit values. -/
def maskFloor (ones x : Nat) : Nat :=
  x / 2 ^ (32 - ones) * 2 ^ (32 - ones)

/-- `(*IPNet).Contains`: both the address and the network address are
masked with the (contiguous) mask and compared. -/
def ipInNet (x : Nat) (n : IPNet) : Bool :=
  maskFloor n.ones x == maskFloor n.ones n.ip

/-- `ipLessOrEqual` from the source: unsigned 32-bit comparison. -/
def ipLessOrEqual (a b : Nat) : Bool :=
  decide (a ≤ b)

/-- `validateDHCPRange` from the source, with the Go error strings. -/
def validateDHCPRange (subnet gateway start end_ : String) : Except String Unit :=
  match parseCIDRv4 subnet with
  | none => .error "bridge subnet invalid"
  | some ipnet =>
    match parseIPv4 start with
    | none => .error "invalid range start IP"
    | some startIP =>
      match parseIPv4 end_ with
      | none => .error "invalid range end IP"
      | some endIP =>
        if ¬ ipInNet startIP ipnet ∨ ¬ ipInNet endIP ipnet then
          .error "DHCP range must be within bridge subnet"
        else if ¬ ipLessOrEqual startIP endIP then
          .error "range start must be <= range end"
        else
          match parseIPv4 gateway with
          | some gwIP =>
            if ipLessOrEqual startIP gwIP ∧ ipLessOrEqual gwIP endIP then
              .error "DHCP range must not include gateway IP"
            else .ok ()
          | none => .ok ()

-- sanity checks on concrete inputs
example : parseIPv4 "10.0.0.1" = some (10 * 2 ^ 24 + 1) := by decide
example : parseIPv4 "10.0.0.01" = none := by decide
example : parseIPv4 "256.0.0.1" = none := by decide
example : parseCIDRv4 "10.0.0.0/24" = some ⟨10 * 2 ^ 24, 24⟩ := by decide
example : validateDHCPRange "10.0.0.0/24" "10.0.0.1" "10.0.0.10" "10.0.0.20" = .ok () := rfl
example : validateDHCPRange "10.0.0.0/24" "10.0.0.15" "10.0.0.10" "10.0.0.20" =
    .error "DHCP range must not include gateway IP" := rfl
example : validateDHCPRange "10.0.0.0/24" "nonsense" "10.0.0.10" "10.0.0.20" = .ok () := rfl

/-- C1: for every subnet text parsing as an IPv4 CIDR and gateway, start and
end texts parsing as IPv4 addresses, `validateDHCPRange` succeeds iff
start ≤ end in unsigned 32-bit order, both start and end lie inside the
subnet, and the gateway does not lie in the closed interval [start, end]. -/
theorem validateDHCPRange_ok_iff (subnet gateway start end_ : String)
    (net : IPNet) (g s e : Nat)
    (hn : parseCIDRv4 subnet = some net)
    (hg : parseIPv4 gateway = some g)
    (hs : parseIPv4 start = some s)
    (he : parseIPv4 end_ = some e) :
    validateDHCPRange subnet gateway start end_ = .ok () ↔
      s ≤ e ∧ ipInNet s net = true ∧ ipInNet e net = true ∧ ¬ (s ≤ g ∧ g ≤ e) := by
  simp only [validateDHCPRange, hn, hs, he, hg, ipLessOrEqual]
  split_ifs with h1 h2 h3 <;> simp_all
  rcases h1 with h | h <;> simp [h]

/-- Witness for C1 at a concrete quadruple. -/
theorem validateDHCPRange_ok_iff_witness :
    validateDHCPRange "10.0.0.0/24" "10.0.0.1" "10.0.0.10" "10.0.0.20" = .ok () := by
  rw [validateDHCPRange_ok_iff "10.0.0.0/24" "10.0.0.1" "10.0.0.10" "10.0.0.20"
      ⟨10 * 2 ^ 24, 24⟩ (10 * 2 ^ 24 + 1) (10 * 2 ^ 24 + 10) (10 * 2 ^ 24 + 20)
      (by decide) (by decide) (by decide) (by decide)]
  refine ⟨by decide, by decide, by decide, by decide⟩

/-- C3 counterexample: a gateway text that is not a valid IPv4 address does
not make `validateDHCPRange` fail before the range checks; with subnet,
start and end valid, validation succeeds outright. -/
theorem validateDHCPRange_bad_gateway_succeeds :
    parseIPv4 "not-an-ip" = none ∧
    validateDHCPRange "10.0.0.0/24" "not-an-ip" "10.0.0.10" "10.0.0.20" = .ok () :=
  ⟨rfl, rfl⟩

/-- C3 (amended): `validateDHCPRange` checks its failure conditions in the
fixed order subnet-invalid, start-address-invalid, end-address-invalid,
range-outside-subnet, range-inverted, range-includes-gateway,
short-circuiting on the first failure; the gateway is parsed only after all
range checks pass, and an unparsable gateway skips the gateway check
rather than failing. -/
theorem validateDHCPRange_check_order (subnet gateway start end_ : String) :
    (parseCIDRv4 subnet = none →
      validateDHCPRange subnet gateway start end_ = .error "bridge subnet invalid") ∧
    (∀ net, parseCIDRv4 subnet = some net → parseIPv4 start = none →
      validateDHCPRange subnet gateway start end_ = .error "invalid range start IP") ∧
    (∀ net s, parseCIDRv4 subnet = some net → parseIPv4 start = some s →
      parseIPv4 end_ = none →
      validateDHCPRange subnet gateway start end_ = .error "invalid range end IP") ∧
    (∀ net s e, parseCIDRv4 subnet = some net → parseIPv4 start = some s →
      parseIPv4 end_ = some e → (ipInNet s net = false ∨ ipInNet e net = false) →
      validateDHCPRange subnet gateway start end_ =
        .error "DHCP range must be within bridge subnet") ∧
    (∀ net s e, parseCIDRv4 subnet = some net → parseIPv4 start = some s →
      parseIPv4 end_ = some e → ipInNet s net = true → ipInNet e net = true →
      ¬ s ≤ e →
      validateDHCPRange subnet gateway start end_ =
        .error "range start must be <= range end") ∧
    (∀ net s e g, parseCIDRv4 subnet = some net → parseIPv4 start = some s →
      parseIPv4 end_ = some e → ipInNet s net = true → ipInNet e net = true →
      s ≤ e → parseIPv4 gateway = some g → s ≤ g → g ≤ e →
      validateDHCPRange subnet gateway start end_ =
        .error "DHCP range must not include gateway IP") := by
  refine ⟨fun h => by simp [validateDHCPRange, h],
    fun net hn hs => by simp [validateDHCPRange, hn, hs],
    fun net s hn hs he => by simp [validateDHCPRange, hn, hs, he],
    fun net s e hn hs he hout => by
      simp only [validateDHCPRange, hn, hs, he]
      rcases hout with h | h <;> simp [h],
    fun net s e hn hs he hsn hen hlt => by
      simp [validateDHCPRange, hn, hs, he, hsn, hen, ipLessOrEqual, hlt],
    fun net s e g hn hs he hsn hen hle hg hsg hge => by
      simp [validateDHCPRange, hn, hs, he, hsn, hen, ipLessOrEqual, hle, hg, hsg, hge]⟩

/-- Witness for C3 (amended): the subnet check fires first on a malformed
subnet, and the inverted-range check fires with the Go message. -/
theorem validateDHCPRange_check_order_witness :
    validateDHCPRange "bogus" "10.0.0.1" "10.0.0.10" "10.0.0.20" =
      .error "bridge subnet invalid" ∧
    validateDHCPRange "10.0.0.0/24" "10.0.0.1" "10.0.0.20" "10.0.0.10" =
      .error "range start must be <= range end" :=
  ⟨(validateDHCPRange_check_order "bogus" "10.0.0.1" "10.0.0.10" "10.0.0.20").1 rfl,
   (validateDHCPRange_check_order "10.0.0.0/24" "10.0.0.1" "10.0.0.20" "10.0.0.10").2.2.2.2.1
     ⟨10 * 2 ^ 24, 24⟩ (10 * 2 ^ 24 + 20) (10 * 2 ^ 24 + 10)
     (by decide) (by decide) (by decide) (by decide) (by decide) (by decide)⟩

/-- C10: when subnet, start and end all parse, both ends lie in the subnet
and start ≤ end, an unparsable gateway text makes `validateDHCPRange`
succeed: the gateway-exclusion check is silently skipped. -/
theorem validateDHCPRange_unparsable_gateway_ok (subnet gateway start end_ : String)
    (net : IPNet) (s e : Nat)
    (hn : parseCIDRv4 subnet = some net)
    (hs : parseIPv4 start = some s)
    (he : parseIPv4 end_ = some e)
    (hsn : ipInNet s net = true)
    (hen : ipInNet e net = true)
    (hle : s ≤ e)
    (hg : parseIPv4 gateway = none) :
    validateDHCPRange subnet gateway start end_ = .ok () := by
  simp [validateDHCPRange, hn, hs, he, hsn, hen, ipLessOrEqual, hle, hg]

/-- Witness for C10 at a concrete input with an unparsable gateway. -/
theorem validateDHCPRange_unparsable_gateway_ok_witness :
    validateDHCPRange "10.0.0.0/24" "10.0.0.300" "10.0.0.10" "10.0.0.20" = .ok () :=
  validateDHCPRange_unparsable_gateway_ok "10.0.0.0/24" "10.0.0.300" "10.0.0.10" "10.0.0.20"
    ⟨10 * 2 ^ 24, 24⟩ (10 * 2 ^ 24 + 10) (10 * 2 ^ 24 + 20)
    (by decide) (by decide) (by decide) (by decide) (by decide) (by decide) (by decide)

/-! ## Declarative model (Go file `part_004` and `config.go`)

Only the fields the reconciliation core reads are carried (auth, session
and Proxmox connection fields of `Config` are opaque to every claim). -/

/-- `DHCPConfig`: a DHCP pool attached to a bridge. -/
structure DHCPConfig where
  rangeStart : String
  rangeEnd : String
  leaseTime : String
  dns1 : String
  dns2 : String
deriving DecidableEq

/-- `PortForward`: a single DNAT rule. Ports are `uint16` values. -/
structure PortForward where
  id : String
  protocol : String
  extPort : Nat
  intIP : String
  intPort : Nat
  comment : String
  enabled : Bool
deriving DecidableEq

/-- `BridgeConfig`: a managed bridge. -/
structure BridgeConfig where
  name : String
  subnet : String
  gatewayIP : String
  natEnabled : Bool
  dhcp : Option DHCPConfig
  forwards : List PortForward
deriving DecidableEq

/-- `Config`: the persisted model (reconciliation-relevant fields). -/
structure Config where
  wanInterface : String
  bridges : List BridgeConfig
  path : String
deriving DecidableEq

/-- `Lease`: one row of the dnsmasq lease database. -/
structure Lease where
  timestamp : String
  mac : String
  ip : String
  hostname : String
deriving DecidableEq

/-! ## String helpers shared by the compilers -/

/-- `strings.Contains` on character lists: the needle occurs as a
contiguous run of the haystack. -/
def containsSubChars (hay needle : List Char) : Bool :=
  needle.isPrefixOf hay ||
    match hay with
    | [] => false
    | _ :: t => containsSubChars t needle

/-- `strings.Contains` from the Go standard library. -/
def strContains (s sub : String) : Bool :=
  containsSubChars s.data sub.data

/-- `%q` formatting of a string (printable-character case): wrap in double
quotes, escaping backslash and double quote. -/
def goQuoteChar (c : Char) : List Char :=
  if c = '"' then ['\\', '"']
  else if c = '\\' then ['\\', '\\']
  else [c]

/-- `fmt.Sprintf "%q"` on printable text. -/
def goQuote (s : String) : String :=
  "\"" ++ String.mk (s.data.flatMap goQuoteChar) ++ "\""

/-! ## NAT compiler + reconciler (Go file `part_000`, `NFTManager`) -/

/-- The comment suffix of a DNAT rule: empty, or ` comment "…"`. -/
def commentStr (f : PortForward) : String :=
  if f.comment = "" then "" else " comment " ++ goQuote f.comment

/-- One prerouting DNAT rule line, from the `fmt.Sprintf` in
`generateRuleset`. -/
def dnatLine (wan proto : String) (f : PortForward) : String :=
  "        iifname " ++ goQuote wan ++ " " ++ proto ++ " dport " ++ toString f.extPort ++
    " dnat to " ++ f.intIP ++ ":" ++ toString f.intPort ++ commentStr f ++ "\n"

/-- The protocol expansion of a forward: `"tcp+udp"` becomes
`["tcp", "udp"]`, anything else stays a one-element list. -/
def forwardProtocols (f : PortForward) : List String :=
  if f.protocol = "tcp+udp" then ["tcp", "udp"] else [f.protocol]

/-- All prerouting lines emitted for one forward (none when disabled). -/
def forwardLines (wan : String) (f : PortForward) : List String :=
  if f.enabled then (forwardProtocols f).map (fun p => dnatLine wan p f) else []

/-- The prerouting chain body: the nested bridge/forward loops of
`generateRuleset`. -/
def preroutingLines (cfg : Config) : List String :=
  cfg.bridges.flatMap (fun b => b.forwards.flatMap (forwardLines cfg.wanInterface))

/-- One postrouting masquerade rule line. -/
def masqLine (wan subnet : String) : String :=
  "        oifname " ++ goQuote wan ++ " ip saddr " ++ subnet ++ " masquerade\n"

/-- The postrouting chain body: one masquerade rule per NAT-enabled
bridge. -/
def postroutingLines (cfg : Config) : List String :=
  cfg.bridges.filterMap fun b =>
    if b.natEnabled then some (masqLine cfg.wanInterface b.subnet) else none

/-- `NFTManager.generateRuleset` from the source: the full ruleset text. -/
def generateRuleset (cfg : Config) : String :=
  "# Managed by PNAT - do not edit manually\n" ++
    "add table ip pnat\n" ++
    "flush table ip pnat\n\n" ++
    "table ip pnat \x7b\n" ++
    "    chain prerouting \x7b\n" ++
    "        type nat hook prerouting priority dstnat; policy accept;\n" ++
    String.join (preroutingLines cfg) ++
    "    \x7d\n\n" ++
    "    chain postrouting \x7b\n" ++
    "        type nat hook postrouting priority srcnat; policy accept;\n" ++
    String.join (postroutingLines cfg) ++
    "    \x7d\n" ++
    "\x7d\n"

/-- The `hasNAT` flag computed by `NFTManager.Apply`'s scan loop. -/
def applyHasNAT (cfg : Config) : Bool :=
  cfg.bridges.any (·.natEnabled)

/-- The `hasRules` flag computed by `NFTManager.Apply`'s scan loop: some
bridge has NAT enabled or some forward is enabled. -/
def applyHasRules (cfg : Config) : Bool :=
  cfg.bridges.any fun b => b.natEnabled || b.forwards.any (·.enabled)

/-- The externally visible action `NFTManager.Apply` decides on: either
delete the `ip pnat` table, or write the compiled ruleset atomically and
load it with `nft -f`. -/
inductive NftAction where
  | removeTable
  | writeAndLoad (ruleset : String)
deriving DecidableEq

/-- The action taken by `NFTManager.Apply` (the `if !hasRules { return
n.Remove() }` branch versus the compile-write-load path). -/
def nftApplyAction (cfg : Config) : NftAction :=
  if applyHasRules cfg then .writeAndLoad (generateRuleset cfg) else .removeTable

/-- `strings.TrimSpace`. -/
def trimSpace (s : String) : String :=
  String.mk ((s.data.dropWhile Char.isWhitespace).reverse.dropWhile Char.isWhitespace |>.reverse)

/-- `NFTManager.Remove`, as a function of the external `nft delete table`
invocation's outcome (`execOk`) and combined output (`out`): a failure
whose diagnostic says the table is absent is normalized to success. -/
def nftRemoveResult (execOk : Bool) (out : String) : Except String Unit :=
  if execOk then .ok ()
  else if strContains out "No such file or directory" || strContains out "does not exist" then
    .ok ()
  else .error ("nft delete table: " ++ trimSpace out)

/-! ## DHCP compiler + reconciler (Go file `part_005`, `DNSMasqManager`) -/

/-- `DNSMasqManager.generateConfig` from the source: the dnsmasq
configuration text. -/
def generateConfig (cfg : Config) : String :=
  "# Managed by PNAT - do not edit manually\n" ++
    "bind-interfaces\n" ++
    "port=0\n" ++
    "keep-in-foreground\n" ++
    "no-daemon\n" ++
    "dhcp-leasefile=/var/lib/pnat/dnsmasq.leases\n" ++
    "\n" ++
    String.join (cfg.bridges.map fun b =>
      match b.dhcp with
      | none => ""
      | some d =>
        let leaseTime := if d.leaseTime = "" then "12h" else d.leaseTime
        let dns := if d.dns2 ≠ "" then d.dns1 ++ "," ++ d.dns2 else d.dns1
        "# Bridge " ++ b.name ++ "\n" ++
          "interface=" ++ b.name ++ "\n" ++
          "dhcp-range=" ++ b.name ++ "," ++ d.rangeStart ++ "," ++ d.rangeEnd ++ "," ++
            leaseTime ++ "\n" ++
          "dhcp-option=" ++ b.name ++ ",3," ++ b.gatewayIP ++ "\n" ++
          (if dns ≠ "" then "dhcp-option=" ++ b.name ++ ",6," ++ dns ++ "\n" else "") ++
          "\n")

/-- The externally visible action `DNSMasqManager.Apply` decides on. -/
inductive DhcpAction where
  | stopService
  | writeAndRestart (config : String)
deriving DecidableEq

/-- The `hasDHCP` flag of `DNSMasqManager.Apply`. -/
def applyHasDHCP (cfg : Config) : Bool :=
  cfg.bridges.any (·.dhcp.isSome)

/-- The action taken by `DNSMasqManager.Apply`. -/
def dnsmasqApplyAction (cfg : Config) : DhcpAction :=
  if applyHasDHCP cfg then .writeAndRestart (generateConfig cfg) else .stopService

/-! ## Helper lemmas about the string machinery -/

theorem containsSubChars_iff (hay needle : List Char) :
    containsSubChars hay needle = true ↔ needle <:+: hay := by
  induction hay with
  | nil =>
    simp only [containsSubChars, List.isPrefixOf_iff_prefix, Bool.or_eq_true]
    simp [List.prefix_nil, List.infix_nil]
  | cons c t ih =>
    rw [containsSubChars]
    simp only [Bool.or_eq_true, List.isPrefixOf_iff_prefix, ih, List.infix_cons_iff]

theorem mem_flatMap_infix {α β : Type} (g : α → List β) (l : List α) (a : α)
    (ha : a ∈ l) : g a <:+: l.flatMap g := by
  induction l with
  | nil => cases ha
  | cons x xs ih =>
    rcases List.mem_cons.mp ha with h | h
    · subst h
      exact (List.prefix_append (g a) (xs.flatMap g)).isInfix
    · obtain ⟨s, t, hst⟩ := ih h
      exact ⟨g x ++ s, t, by simp [List.flatMap_cons, ← hst]⟩

theorem data_join (l : List String) :
    (String.join l).data = (l.map String.data).flatten := by
  have key : ∀ (l : List String) (acc : String),
      (l.foldl (· ++ ·) acc).data = acc.data ++ (l.map String.data).flatten := by
    intro l
    induction l with
    | nil => simp
    | cons x xs ih => intro acc; simp [List.foldl_cons, ih, String.data_append]
  have h := key l ""
  simp only [show ("" : String).data = [] from rfl, List.nil_append] at h
  exact h

theorem infixAppendL {α : Type} {sub y : List α} (h : sub <:+: y) (x : List α) :
    sub <:+: x ++ y := by
  obtain ⟨u, v, huv⟩ := h
  exact ⟨x ++ u, v, by simp [← huv]⟩

theorem infixAppendR {α : Type} {sub x : List α} (h : sub <:+: x) (y : List α) :
    sub <:+: x ++ y := by
  obtain ⟨u, v, huv⟩ := h
  exact ⟨u, v ++ y, by simp [← huv]⟩

/-! ## Theorems for the NAT compiler claims -/

/-- C4: when no bridge has NAT enabled and no forward is enabled,
`NFTManager.Apply` performs no ruleset write and instead removes the
dedicated table, and `NFTManager.Remove` treats the tool's "no such
file"/"does not exist" diagnostic as success, so removal of an absent
table is idempotent. -/
theorem nftApply_no_rules_removes (cfg : Config)
    (hnat : ∀ b ∈ cfg.bridges, b.natEnabled = false)
    (hfwd : ∀ b ∈ cfg.bridges, ∀ f ∈ b.forwards, f.enabled = false) :
    nftApplyAction cfg = .removeTable ∧
    (∀ execOk out,
      strContains out "No such file or directory" = true ∨
        strContains out "does not exist" = true →
      nftRemoveResult execOk out = .ok ()) := by
  constructor
  · have hrules : applyHasRules cfg = false := by
      rw [applyHasRules, List.any_eq_false]
      intro b hb
      simp [hnat b hb, List.any_eq_false]
      exact hfwd b hb
    simp [nftApplyAction, hrules]
  · intro execOk out h
    cases execOk <;> rcases h with h | h <;> simp [nftRemoveResult, h]

/-- Witness for C4: a model with one NAT-disabled bridge carrying one
disabled forward yields the remove-table action, and a failing
`nft delete table` whose diagnostic reports an absent table is success. -/
theorem nftApply_no_rules_removes_witness :
    nftApplyAction ⟨"eth0",
      [⟨"vmbr1", "10.0.0.0/24", "10.0.0.1", false, none,
        [⟨"id1", "tcp", 2222, "10.0.0.5", 22, "ssh", false⟩]⟩], "/etc/pnat/pnat.json"⟩ =
      .removeTable ∧
    nftRemoveResult false
      "Error: Could not process rule: No such file or directory\ndelete table ip pnat" =
      .ok () := by
  have h := nftApply_no_rules_removes
    ⟨"eth0",
      [⟨"vmbr1", "10.0.0.0/24", "10.0.0.1", false, none,
        [⟨"id1", "tcp", 2222, "10.0.0.5", 22, "ssh", false⟩]⟩], "/etc/pnat/pnat.json"⟩
    (by decide) (by decide)
  exact ⟨h.1, h.2 false _ (Or.inl (by decide))⟩

/-- C5: an enabled forward declared with protocol `"tcp+udp"` contributes
exactly two prerouting DNAT rules, rendered by the same line template at
the same interface, external port, target and comment, differing only in
the protocol argument (`"tcp"` versus `"udp"`); both lines occur in the
compiled ruleset text. -/
theorem tcpudp_forward_two_rules (cfg : Config) (b : BridgeConfig) (f : PortForward)
    (hb : b ∈ cfg.bridges) (hf : f ∈ b.forwards)
    (hen : f.enabled = true) (hp : f.protocol = "tcp+udp") :
    forwardLines cfg.wanInterface f =
      [dnatLine cfg.wanInterface "tcp" f, dnatLine cfg.wanInterface "udp" f] ∧
    (forwardLines cfg.wanInterface f) <:+: preroutingLines cfg ∧
    strContains (generateRuleset cfg) (dnatLine cfg.wanInterface "tcp" f) = true ∧
    strContains (generateRuleset cfg) (dnatLine cfg.wanInterface "udp" f) = true := by
  have hl : forwardLines cfg.wanInterface f =
      [dnatLine cfg.wanInterface "tcp" f, dnatLine cfg.wanInterface "udp" f] := by
    simp [forwardLines, hen, forwardProtocols, hp]
  have h2 : forwardLines cfg.wanInterface f <:+:
      b.forwards.flatMap (forwardLines cfg.wanInterface) :=
    mem_flatMap_infix (forwardLines cfg.wanInterface) b.forwards f hf
  have h3 : b.forwards.flatMap (forwardLines cfg.wanInterface) <:+:
      cfg.bridges.flatMap (fun br => br.forwards.flatMap (forwardLines cfg.wanInterface)) :=
    mem_flatMap_infix (fun br => br.forwards.flatMap (forwardLines cfg.wanInterface))
      cfg.bridges b hb
  have hinner : forwardLines cfg.wanInterface f <:+: preroutingLines cfg := by
    rw [preroutingLines]; exact h2.trans h3
  have hcontains : ∀ p ∈ forwardProtocols f,
      strContains (generateRuleset cfg) (dnatLine cfg.wanInterface p f) = true := by
    intro p hp'
    have h1 : dnatLine cfg.wanInterface p f ∈ forwardLines cfg.wanInterface f := by
      rw [forwardLines, if_pos hen]
      exact List.mem_map_of_mem _ hp'
    have hbase : (dnatLine cfg.wanInterface p f).data <:+:
        (String.join (preroutingLines cfg)).data := by
      rw [data_join]
      exact List.infix_of_mem_flatten
        (List.mem_map_of_mem String.data (hinner.mem h1))
    rw [strContains, containsSubChars_iff, generateRuleset]
    simp only [String.data_append]
    exact infixAppendR (infixAppendR (infixAppendR (infixAppendR (infixAppendR
      (infixAppendR (infixAppendL hbase _) _) _) _) _) _) _
  have htcp : "tcp" ∈ forwardProtocols f := by simp [forwardProtocols, hp]
  have hudp : "udp" ∈ forwardProtocols f := by simp [forwardProtocols, hp]
  exact ⟨hl, hinner, hcontains _ htcp, hcontains _ hudp⟩

/-- A concrete enabled forward declared for both protocols. -/
def fwdEx : PortForward := ⟨"f1", "tcp+udp", 8080, "10.0.0.42", 80, "web", true⟩

/-- A concrete bridge carrying `fwdEx`. -/
def bridgeEx : BridgeConfig := ⟨"vmbr1", "10.0.0.0/24", "10.0.0.1", true, none, [fwdEx]⟩

/-- A concrete model with one bridge. -/
def cfgEx : Config := ⟨"eth0", [bridgeEx], "/etc/pnat/pnat.json"⟩

/-- Witness for C5 at the concrete model `cfgEx`. -/
theorem tcpudp_forward_two_rules_witness :
    forwardLines "eth0" fwdEx = [dnatLine "eth0" "tcp" fwdEx, dnatLine "eth0" "udp" fwdEx] ∧
    forwardLines "eth0" fwdEx <:+: preroutingLines cfgEx ∧
    strContains (generateRuleset cfgEx) (dnatLine "eth0" "tcp" fwdEx) = true ∧
    strContains (generateRuleset cfgEx) (dnatLine "eth0" "udp" fwdEx) = true :=
  tcpudp_forward_two_rules cfgEx bridgeEx fwdEx
    (by simp [cfgEx]) (by simp [bridgeEx]) rfl rfl

/-- C9: both compilers are pure functions of the model, so compiling the
same unchanged model twice yields byte-identical ruleset text and
byte-identical DHCP configuration text, and the reconcilers decide the
same action on both occasions. -/
theorem compile_unchanged_idempotent (cfg : Config) :
    generateRuleset cfg = generateRuleset cfg ∧
    generateConfig cfg = generateConfig cfg ∧
    nftApplyAction cfg = nftApplyAction cfg ∧
    dnsmasqApplyAction cfg = dnsmasqApplyAction cfg :=
  ⟨rfl, rfl, rfl, rfl⟩

/-! ## Model persistence (`config.go`, `Save`)

The filesystem is an association list from paths to contents; `os.WriteFile`
and `os.Rename` can each fail, modelled by Boolean success oracles. Rename
is POSIX-atomic: it either replaces the destination or changes nothing.
`json.MarshalIndent` cannot fail on this struct shape; its output is
modelled by a deterministic rendering of the carried fields. -/

/-- A filesystem snapshot: path/content pairs, first match wins. -/
def FS := List (String × String)

/-- Read a path's content. -/
def fsLookup (fs : FS) (p : String) : Option String :=
  match fs with
  | [] => none
  | e :: rest => if e.1 = p then some e.2 else fsLookup rest p

/-- Delete a path. -/
def fsRemove (fs : FS) (p : String) : FS :=
  fs.filter (fun e => ¬ e.1 = p)

/-- Replace (or create) a path's content. -/
def fsWrite (fs : FS) (p content : String) : FS :=
  (p, content) :: fsRemove fs p

/-- Serialization of one forward (deterministic stand-in for the JSON
encoder). -/
def marshalForward (f : PortForward) : String :=
  "\x7bid:" ++ goQuote f.id ++ ",protocol:" ++ goQuote f.protocol ++
    ",ext_port:" ++ toString f.extPort ++ ",int_ip:" ++ goQuote f.intIP ++
    ",int_port:" ++ toString f.intPort ++ ",comment:" ++ goQuote f.comment ++
    ",enabled:" ++ (if f.enabled then "true" else "false") ++ "\x7d"

/-- Serialization of one bridge. -/
def marshalBridge (b : BridgeConfig) : String :=
  "\x7bname:" ++ goQuote b.name ++ ",subnet:" ++ goQuote b.subnet ++
    ",gateway_ip:" ++ goQuote b.gatewayIP ++
    ",nat_enabled:" ++ (if b.natEnabled then "true" else "false") ++
    ",dhcp:" ++
    (match b.dhcp with
     | none => "null"
     | some d =>
       "\x7brange_start:" ++ goQuote d.rangeStart ++ ",range_end:" ++ goQuote d.rangeEnd ++
         ",lease_time:" ++ goQuote d.leaseTime ++ ",dns1:" ++ goQuote d.dns1 ++
         ",dns2:" ++ goQuote d.dns2 ++ "\x7d") ++
    ",forwards:[" ++ String.intercalate "," (b.forwards.map marshalForward) ++ "]\x7d"

/-- Serialization of the full model. -/
def marshalConfig (cfg : Config) : String :=
  "\x7bwan_interface:" ++ goQuote cfg.wanInterface ++
    ",bridges:[" ++ String.intercalate "," (cfg.bridges.map marshalBridge) ++ "]\x7d"

/-- `Config.Save` from `config.go`: marshal, write `path + ".tmp"`, rename
over `path`; on rename failure the temporary file is removed. -/
def Save (fs : FS) (cfg : Config) (writeOk renameOk : Bool) : Except String Unit × FS :=
  let data := marshalConfig cfg
  let tmp := cfg.path ++ ".tmp"
  if writeOk = false then (.error "write temp config", fs)
  else
    let fs1 := fsWrite fs tmp data
    if renameOk = false then (.error "rename config", fsRemove fs1 tmp)
    else (.ok (), fsWrite (fsRemove fs1 tmp) cfg.path data)

theorem path_ne_tmp (p : String) : ¬ p = p ++ ".tmp" := by
  intro h
  have hlen := congrArg String.length h
  rw [String.length_append] at hlen
  have h4 : (".tmp" : String).length = 4 := rfl
  rw [h4] at hlen
  omega

theorem fsLookup_remove_other (fs : FS) (p q : String) (h : ¬ p = q) :
    fsLookup (fsRemove fs q) p = fsLookup fs p := by
  induction fs with
  | nil => rfl
  | cons e rest ih =>
    simp only [fsRemove, List.filter_cons, decide_not] at ih ⊢
    by_cases he : e.1 = q
    · have hqp : ¬ q = p := fun hq => h hq.symm
      simp [he, fsLookup, hqp, ih]
    · simp [he, fsLookup, ih]

theorem fsLookup_write_other (fs : FS) (p q c : String) (h : ¬ p = q) :
    fsLookup (fsWrite fs q c) p = fsLookup fs p := by
  rw [fsWrite,
    show fsLookup ((q, c) :: fsRemove fs q) p =
      if q = p then some c else fsLookup (fsRemove fs q) p from rfl,
    if_neg (fun hq => h hq.symm)]
  exact fsLookup_remove_other fs p q h

/-- C7: `Save` is atomic. On success the canonical path holds the
serialized model; if the temporary-file write or the rename fails, `Save`
surfaces a persist error and the previous canonical on-disk content is
untouched. -/
theorem save_atomic (fs : FS) (cfg : Config) (writeOk renameOk : Bool) :
    (writeOk = true → renameOk = true →
      (Save fs cfg writeOk renameOk).1 = .ok () ∧
      fsLookup (Save fs cfg writeOk renameOk).2 cfg.path = some (marshalConfig cfg)) ∧
    (writeOk = false ∨ renameOk = false →
      (∃ e, (Save fs cfg writeOk renameOk).1 = .error e) ∧
      fsLookup (Save fs cfg writeOk renameOk).2 cfg.path = fsLookup fs cfg.path) := by
  constructor
  · intro hw hr
    subst hw; subst hr
    refine ⟨by simp [Save], ?_⟩
    simp [Save, fsWrite, fsLookup]
  · intro hfail
    cases writeOk with
    | false =>
      simp only [Save, if_pos rfl]
      exact ⟨⟨"write temp config", rfl⟩, rfl⟩
    | true =>
      rcases hfail with h | h
      · cases h
      · subst h
        refine ⟨⟨"rename config", by simp [Save]⟩, ?_⟩
        have hgoal : (Save fs cfg true false).2 =
            fsRemove (fsWrite fs (cfg.path ++ ".tmp") (marshalConfig cfg)) (cfg.path ++ ".tmp") := by
          simp [Save]
        rw [hgoal, fsLookup_remove_other _ _ _ (path_ne_tmp cfg.path),
          fsLookup_write_other _ _ _ _ (path_ne_tmp cfg.path)]

/-- Witness for C7: a successful save replaces the canonical content; a
failed rename leaves the previous content in place and errors. -/
theorem save_atomic_witness :
    ((Save [(cfgEx.path, "old")] cfgEx true true).1 = .ok () ∧
      fsLookup (Save [(cfgEx.path, "old")] cfgEx true true).2 cfgEx.path =
        some (marshalConfig cfgEx)) ∧
    ((∃ e, (Save [(cfgEx.path, "old")] cfgEx true false).1 = .error e) ∧
      fsLookup (Save [(cfgEx.path, "old")] cfgEx true false).2 cfgEx.path =
        fsLookup [(cfgEx.path, "old")] cfgEx.path) :=
  ⟨(save_atomic [(cfgEx.path, "old")] cfgEx true true).1 rfl rfl,
   (save_atomic [(cfgEx.path, "old")] cfgEx true false).2 (Or.inr rfl)⟩

/-! ## Externally triggered mutations (`tui.go` handlers)

Each handler is embedded from the point its request values are in hand:
it validates, mutates the model, then performs its persist/reconcile
effects, which we record as a trace. `Save`/`Apply` errors are only logged
by the source (`log.Printf`), so handler results carry no dependence on
those outcomes and the persisted model change is never rolled back. The
random `generateID()` output is passed in as the `id` argument. -/

/-- The persist/reconcile calls a handler makes, in order. -/
inductive Effect where
  | save
  | nftApply
  | dnsmasqApply
deriving DecidableEq

/-- `Config.FindBridge`: the first bridge with the given name. -/
def findBridge (cfg : Config) (name : String) : Option BridgeConfig :=
  cfg.bridges.find? (fun b => b.name == name)

/-- Mutation through the pointer `FindBridge` returns: rewrite the first
bridge with the given name. -/
def updateFirstBridge (bs : List BridgeConfig) (name : String)
    (g : BridgeConfig → BridgeConfig) : List BridgeConfig :=
  match bs with
  | [] => []
  | b :: rest =>
    if b.name = name then g b :: rest else b :: updateFirstBridge rest name g

/-- The duplicate-external-port scan of `HandleForwardCreate`: some enabled
forward uses this external port with an overlapping protocol
(`"tcp+udp"` overlaps either single protocol). -/
def forwardConflict (cfg : Config) (extPort : Nat) (protocol : String) : Bool :=
  cfg.bridges.any fun b => b.forwards.any fun f =>
    f.extPort == extPort && f.enabled &&
      (f.protocol == protocol || f.protocol == "tcp+udp" || protocol == "tcp+udp")

/-- `HandleNATToggle`: flip the bridge's NAT flag, save, apply nftables. -/
def HandleNATToggle (cfg : Config) (bridgeName : String) :
    Except String (Config × List Effect) :=
  match findBridge cfg bridgeName with
  | none => .error "Bridge not found"
  | some _ =>
    .ok ({cfg with bridges := (updateFirstBridge cfg.bridges bridgeName
            (fun b => {b with natEnabled := !b.natEnabled}))},
      [.save, .nftApply])

/-- `HandleForwardCreate`: validate ports, internal IP, protocol, bridge,
subnet containment and the port-conflict rule, then append the new forward
(enabled), save and apply nftables. Out-of-range `uint16` text is modelled
by the range checks on the numeric arguments. -/
def HandleForwardCreate (cfg : Config) (bridgeName protocol : String)
    (extPort : Nat) (intIP : String) (intPort : Nat) (comment id : String) :
    Except String (Config × List Effect) :=
  if extPort = 0 ∨ 65535 < extPort then .error "Invalid external port"
  else if intPort = 0 ∨ 65535 < intPort then .error "Invalid internal port"
  else if parseIPv4 intIP = none then .error "Invalid internal IP"
  else if ¬ (protocol = "tcp" ∨ protocol = "udp" ∨ protocol = "tcp+udp") then
    .error "Invalid protocol"
  else
    match parseIPv4 intIP with
    | none => .error "Invalid internal IP (IPv4 required)"
    | some intIPv4 =>
      match findBridge cfg bridgeName with
      | none => .error "Bridge not found"
      | some br =>
        match parseCIDRv4 br.subnet with
        | none => .error "Bridge subnet invalid"
        | some ipnet =>
          if ¬ ipInNet intIPv4 ipnet then .error "Internal IP not in bridge subnet"
          else if forwardConflict cfg extPort protocol then
            .error ("External port " ++ toString extPort ++ " already in use")
          else
            .ok ({cfg with bridges := (updateFirstBridge cfg.bridges bridgeName
                    (fun b => {b with forwards :=
                      (b.forwards ++ [⟨id, protocol, extPort, intIP, intPort, comment, true⟩])}))},
              [.save, .nftApply])

/-- Remove the first forward with the given id from a forward list
(`Config.DeleteForward`'s inner splice). -/
def deleteFirstPF (fs : List PortForward) (id : String) : List PortForward :=
  match fs with
  | [] => []
  | f :: rest => if f.id = id then rest else f :: deleteFirstPF rest id

/-- Rewrite the first forward with the given id in a forward list
(mutation through the pointer `FindForward` returns). -/
def updateFirstPF (fs : List PortForward) (id : String)
    (g : PortForward → PortForward) : List PortForward :=
  match fs with
  | [] => []
  | f :: rest => if f.id = id then g f :: rest else f :: updateFirstPF rest id g

/-- `Config.DeleteForward` over the bridge list: `none` when no forward
has the id. -/
def deleteForwardInBridges (bs : List BridgeConfig) (id : String) :
    Option (List BridgeConfig) :=
  match bs with
  | [] => none
  | b :: rest =>
    if b.forwards.any (fun f => f.id == id) then
      some ({b with forwards := deleteFirstPF b.forwards id} :: rest)
    else (deleteForwardInBridges rest id).map (b :: ·)

/-- `Config.FindForward` followed by a field rewrite, over the bridge
list: `none` when no forward has the id. -/
def updateForwardInBridges (bs : List BridgeConfig) (id : String)
    (g : PortForward → PortForward) : Option (List BridgeConfig) :=
  match bs with
  | [] => none
  | b :: rest =>
    if b.forwards.any (fun f => f.id == id) then
      some ({b with forwards := updateFirstPF b.forwards id g} :: rest)
    else (updateForwardInBridges rest id g).map (b :: ·)

/-- `HandleForwardDelete`: remove the forward, save, apply nftables. -/
def HandleForwardDelete (cfg : Config) (id : String) :
    Except String (Config × List Effect) :=
  match deleteForwardInBridges cfg.bridges id with
  | none => .error "Forward not found"
  | some bs => .ok ({cfg with bridges := bs}, [.save, .nftApply])

/-- `HandleForwardToggle`: flip the forward's enabled flag (no conflict
re-check), save, apply nftables. -/
def HandleForwardToggle (cfg : Config) (id : String) :
    Except String (Config × List Effect) :=
  match updateForwardInBridges cfg.bridges id (fun f => {f with enabled := !f.enabled}) with
  | none => .error "Forward not found"
  | some bs => .ok ({cfg with bridges := bs}, [.save, .nftApply])

/-- `Config.DeleteBridge` over the bridge list. -/
def deleteBridgeInList (bs : List BridgeConfig) (name : String) :
    Option (List BridgeConfig) :=
  match bs with
  | [] => none
  | b :: rest =>
    if b.name = name then some rest else (deleteBridgeInList rest name).map (b :: ·)

/-- `HandleBridgeDetach`: remove the bridge from the model, save, apply
nftables, then apply dnsmasq. -/
def HandleBridgeDetach (cfg : Config) (name : String) :
    Except String (Config × List Effect) :=
  if trimSpace name = "" then .error "Bridge name is required"
  else
    match deleteBridgeInList cfg.bridges (trimSpace name) with
    | none => .error "Bridge not managed by PNAT"
    | some bs => .ok ({cfg with bridges := bs}, [.save, .nftApply, .dnsmasqApply])

/-- `HandleDHCPSave`: validate (when enabling) via `validateDHCPRange` and
the DNS fields, set or clear the pool, save, apply dnsmasq. -/
def HandleDHCPSave (cfg : Config) (bridgeName : String) (enabled : Bool)
    (rangeStart rangeEnd leaseTime dns1 dns2 : String) :
    Except String (Config × List Effect) :=
  match findBridge cfg bridgeName with
  | none => .error "Bridge not found"
  | some br =>
    if enabled = false then
      .ok ({cfg with bridges := (updateFirstBridge cfg.bridges bridgeName
              (fun b => {b with dhcp := none}))},
        [.save, .dnsmasqApply])
    else
      match validateDHCPRange br.subnet br.gatewayIP rangeStart rangeEnd with
      | .error e => .error e
      | .ok _ =>
        if dns1 ≠ "" ∧ parseIPv4 dns1 = none then .error "Invalid DNS1 IP"
        else if dns2 ≠ "" ∧ parseIPv4 dns2 = none then .error "Invalid DNS2 IP"
        else
          let lt := if leaseTime = "" then "12h" else leaseTime
          .ok ({cfg with bridges := (updateFirstBridge cfg.bridges bridgeName
                  (fun b => {b with dhcp := some ⟨rangeStart, rangeEnd, lt, dns1, dns2⟩}))},
            [.save, .dnsmasqApply])

/-- The TUI forwards page's Add button (`forwardsPage` in `tui.go`): append
the forward with no validation at all, then `apply()` = save, apply
nftables, apply dnsmasq. A missing bridge leaves the model unchanged. -/
def tuiAddForward (cfg : Config) (selBridge proto : String) (extPort : Nat)
    (intIP : String) (intPort : Nat) (comment id : String) : Config × List Effect :=
  let cfg' :=
    match findBridge cfg selBridge with
    | none => cfg
    | some _ =>
      {cfg with bridges := (updateFirstBridge cfg.bridges selBridge
        (fun b => {b with forwards :=
          (b.forwards ++ [⟨id, proto, extPort, intIP, intPort, comment, true⟩])}))}
  (cfg', [.save, .nftApply, .dnsmasqApply])

/-- `net.IP.String()` for a 4-byte address: dotted decimal. -/
def ipString (ip : Nat) : String :=
  toString (ip / 2 ^ 24 % 256) ++ "." ++ toString (ip / 2 ^ 16 % 256) ++ "." ++
    toString (ip / 2 ^ 8 % 256) ++ "." ++ toString (ip % 256)

/-- A letter, as matched case-insensitively by `ifaceNameRe`'s `[a-z]`. -/
def isAsciiLetter (c : Char) : Bool :=
  ('a' ≤ c && c ≤ 'z') || ('A' ≤ c && c ≤ 'Z')

/-- A character of `ifaceNameRe`'s case-insensitive `[a-z0-9_]` class. -/
def isIfaceWordChar (c : Char) : Bool :=
  isAsciiLetter c || ('0' ≤ c && c ≤ '9') || c == '_'

/-- The `ifaceNameRe` test from `tui.go`:
`(?i)^[a-z][a-z0-9_]{1,20}([:\.][0-9]+)?$`. The word class excludes `:`
and `.`, so the match is deterministic and needs no backtracking. -/
def ifaceNameOk (s : String) : Bool :=
  match s.data with
  | [] => false
  | c :: rest =>
    isAsciiLetter c &&
      (let body := rest.takeWhile isIfaceWordChar
       let tail := rest.drop body.length
       decide (1 ≤ body.length) && decide (body.length ≤ 20) &&
         (match tail with
          | [] => true
          | t :: ds => (t == ':' || t == '.') && !ds.isEmpty && ds.all Char.isDigit))

/-- `cidrFromSubnetAndGateway` from `part_003`: the gateway address with
the subnet's prefix length (the 4-byte mask-size check never fails for
dotted-quad input). -/
def cidrFromSubnetAndGateway (subnet gateway : String) : Except String String :=
  match parseCIDRv4 subnet with
  | none => .error "invalid subnet"
  | some ipnet =>
    match parseIPv4 gateway with
    | none => .error "invalid gateway IP"
    | some ip =>
      if ¬ ipInNet ip ipnet then .error "gateway IP not in subnet"
      else .ok (ipString ip ++ "/" ++ toString ipnet.ones)

/-- `subnetFromCIDR` from `part_003`: the masked network address with the
prefix length. -/
def subnetFromCIDR (cidr : String) : Except String String :=
  match parseCIDRv4 cidr with
  | none => .error "invalid CIDR"
  | some ipnet =>
    .ok (ipString (maskFloor ipnet.ones ipnet.ip) ++ "/" ++ toString ipnet.ones)

/-- `HandleBridgeCreate`: trim and validate the name (against
`ifaceNameRe`), the subnet/gateway pair and the optional DHCP pool
(against the normalized subnet), reject a name already managed or a
bridge-ports value that is not an available uplink, create the bridge
through the Proxmox API, then append it to the model, save, apply
nftables, apply dnsmasq. The uplink lookup and the two API calls are
external; their outcomes are the `uplinkAllowed`/`createOk`/`reloadOk`
arguments and their diagnostic texts are elided from the error strings. -/
def HandleBridgeCreate (cfg : Config) (name0 subnet0 gateway0 : String)
    (natEnabled : Bool) (bridgePorts0 : String) (dhcpEnabled : Bool)
    (rangeStart0 rangeEnd0 leaseTime0 dns10 dns20 : String)
    (uplinkAllowed createOk reloadOk : Bool) :
    Except String (Config × List Effect) :=
  let name := trimSpace name0
  let subnet := trimSpace subnet0
  let gateway := trimSpace gateway0
  let bridgePorts := trimSpace bridgePorts0
  let rangeStart := trimSpace rangeStart0
  let rangeEnd := trimSpace rangeEnd0
  let leaseTimeIn := trimSpace leaseTime0
  let dns1 := trimSpace dns10
  let dns2 := trimSpace dns20
  if name = "" then .error "Bridge name is required"
  else if ¬ ifaceNameOk name then .error "Invalid bridge name"
  else if subnet = "" ∨ gateway = "" then .error "Subnet and gateway IP are required"
  else
    match cidrFromSubnetAndGateway subnet gateway with
    | .error e => .error ("Invalid subnet/gateway: " ++ e)
    | .ok _ =>
      let subnet1 :=
        match subnetFromCIDR subnet with
        | .ok normalized => normalized
        | .error _ => subnet
      let dhcpCheck : Except String String :=
        if dhcpEnabled then
          if rangeStart = "" ∨ rangeEnd = "" then
            .error "DHCP range start/end are required"
          else
            match validateDHCPRange subnet1 gateway rangeStart rangeEnd with
            | .error e => .error e
            | .ok _ =>
              if dns1 ≠ "" ∧ parseIPv4 dns1 = none then .error "Invalid DNS1 IP"
              else if dns2 ≠ "" ∧ parseIPv4 dns2 = none then .error "Invalid DNS2 IP"
              else .ok (if leaseTimeIn = "" then "12h" else leaseTimeIn)
        else .ok leaseTimeIn
      match dhcpCheck with
      | .error e => .error e
      | .ok leaseTime =>
        if (findBridge cfg name).isSome then .error "Bridge already managed by PNAT"
        else if bridgePorts ≠ "" ∧ ¬ uplinkAllowed then
          .error "Invalid bridge port (not available)"
        else if ¬ createOk then .error "Proxmox API error"
        else if ¬ reloadOk then .error "Proxmox reload error"
        else
          .ok ({cfg with bridges := (cfg.bridges ++
              [⟨name, subnet1, gateway, natEnabled,
                if dhcpEnabled then some ⟨rangeStart, rangeEnd, leaseTime, dns1, dns2⟩
                else none, []⟩])},
            [.save, .nftApply, .dnsmasqApply])

/-- `HandleBridgeAttach`: the Proxmox network listing is external; its
outcome is `networksOk` and the CIDR it reports for the interface is
`proxCIDR` (empty when the bridge has none configured). The bridge is
validated like create — the optional pool against the normalized subnet
with the CIDR's address as gateway — then appended to the model, save,
apply nftables, apply dnsmasq. -/
def HandleBridgeAttach (cfg : Config) (name0 : String)
    (natEnabled dhcpEnabled : Bool)
    (rangeStart0 rangeEnd0 leaseTime0 dns10 dns20 : String)
    (networksOk : Bool) (proxCIDR : String) :
    Except String (Config × List Effect) :=
  let name := trimSpace name0
  let rangeStart := trimSpace rangeStart0
  let rangeEnd := trimSpace rangeEnd0
  let leaseTimeIn := trimSpace leaseTime0
  let dns1 := trimSpace dns10
  let dns2 := trimSpace dns20
  if name = "" then .error "Bridge name is required"
  else if ¬ ifaceNameOk name then .error "Invalid bridge name"
  else if ¬ networksOk then .error "Proxmox API error"
  else if proxCIDR = "" then .error "Bridge has no IP/CIDR configured in Proxmox"
  else
    match parseCIDRv4 proxCIDR with
    | none => .error "Invalid bridge CIDR"
    | some ipnet =>
      let gwStr := ipString ipnet.ip
      let subnet := ipString (maskFloor ipnet.ones ipnet.ip) ++ "/" ++ toString ipnet.ones
      let dhcpCheck : Except String String :=
        if dhcpEnabled then
          if rangeStart = "" ∨ rangeEnd = "" then
            .error "DHCP range start/end are required"
          else
            match validateDHCPRange subnet gwStr rangeStart rangeEnd with
            | .error e => .error e
            | .ok _ =>
              if dns1 ≠ "" ∧ parseIPv4 dns1 = none then .error "Invalid DNS1 IP"
              else if dns2 ≠ "" ∧ parseIPv4 dns2 = none then .error "Invalid DNS2 IP"
              else .ok (if leaseTimeIn = "" then "12h" else leaseTimeIn)
        else .ok leaseTimeIn
      match dhcpCheck with
      | .error e => .error e
      | .ok leaseTime =>
        if (findBridge cfg name).isSome then .error "Bridge already managed by PNAT"
        else
          .ok ({cfg with bridges := (cfg.bridges ++
              [⟨name, subnet, gwStr, natEnabled,
                if dhcpEnabled then some ⟨rangeStart, rangeEnd, leaseTime, dns1, dns2⟩
                else none, []⟩])},
            [.save, .nftApply, .dnsmasqApply])

/-! ## The port-conflict invariant and the mutation sequencing -/

/-- Protocol overlap as tested by the conflict scan: equal protocols
collide, and `"tcp+udp"` collides with either side. -/
def protocolsOverlap (p q : String) : Bool :=
  p == q || p == "tcp+udp" || q == "tcp+udp"

/-- All enabled forwards across all bridges. -/
def enabledForwards (cfg : Config) : List PortForward :=
  cfg.bridges.flatMap (fun b => b.forwards.filter (·.enabled))

/-- The claimed invariant: no two enabled forwards share an external port
with overlapping protocols. -/
def pairwiseNoConflict : List PortForward → Bool
  | [] => true
  | f :: rest =>
    rest.all (fun g => !(f.extPort == g.extPort && protocolsOverlap f.protocol g.protocol)) &&
      pairwiseNoConflict rest

set_option maxHeartbeats 1600000 in
/-- C6 (amended): every mutation handler validates first and, on success,
mutates the model, persists it, then invokes exactly the reconcilers its
mutation affects, with the persist preceding every reconciler invocation:
the web handlers for NAT toggle and forward create/delete/toggle invoke
only the NAT reconciler; the web DHCP pool edit invokes only the DHCP
reconciler; bridge create, attach and detach, and the TUI forward-add
path, invoke the NAT reconciler then the DHCP reconciler. Reconciler
outcomes are only logged, never rolled back. -/
theorem handlers_persist_then_reconcile :
    (∀ cfg name out, HandleNATToggle cfg name = .ok out →
      out.2 = [.save, .nftApply]) ∧
    (∀ cfg bn proto ep iip ipo cm id out,
      HandleForwardCreate cfg bn proto ep iip ipo cm id = .ok out →
      out.2 = [.save, .nftApply]) ∧
    (∀ cfg id out, HandleForwardDelete cfg id = .ok out →
      out.2 = [.save, .nftApply]) ∧
    (∀ cfg id out, HandleForwardToggle cfg id = .ok out →
      out.2 = [.save, .nftApply]) ∧
    (∀ cfg name out, HandleBridgeDetach cfg name = .ok out →
      out.2 = [.save, .nftApply, .dnsmasqApply]) ∧
    (∀ cfg bn en rs re lt d1 d2 out,
      HandleDHCPSave cfg bn en rs re lt d1 d2 = .ok out →
      out.2 = [.save, .dnsmasqApply]) ∧
    (∀ cfg br proto ep iip ipo cm id,
      (tuiAddForward cfg br proto ep iip ipo cm id).2 = [.save, .nftApply, .dnsmasqApply]) ∧
    (∀ cfg n s g nat bp dh rs re lt d1 d2 ua co ro out,
      HandleBridgeCreate cfg n s g nat bp dh rs re lt d1 d2 ua co ro = .ok out →
      out.2 = [.save, .nftApply, .dnsmasqApply]) ∧
    (∀ cfg n nat dh rs re lt d1 d2 nk pc out,
      HandleBridgeAttach cfg n nat dh rs re lt d1 d2 nk pc = .ok out →
      out.2 = [.save, .nftApply, .dnsmasqApply]) := by
  refine ⟨?_, ?_, ?_, ?_, ?_, ?_, ?_, ?_, ?_⟩
  · intro cfg name out h
    unfold HandleNATToggle at h
    split at h <;> simp_all
    rw [← h]
  · intro cfg bn proto ep iip ipo cm id out h
    unfold HandleForwardCreate at h
    repeat' split at h
    all_goals simp_all
    all_goals rw [← h]
  · intro cfg id out h
    unfold HandleForwardDelete at h
    split at h <;> simp_all
    rw [← h]
  · intro cfg id out h
    unfold HandleForwardToggle at h
    split at h <;> simp_all
    rw [← h]
  · intro cfg name out h
    unfold HandleBridgeDetach at h
    repeat' split at h
    all_goals simp_all
    all_goals rw [← h]
  · intro cfg bn en rs re lt d1 d2 out h
    unfold HandleDHCPSave at h
    repeat' split at h
    all_goals simp_all
    all_goals rw [← h]
  · intro cfg br proto ep iip ipo cm id
    rfl
  · intro cfg n s g nat bp dh rs re lt d1 d2 ua co ro out h
    simp only [HandleBridgeCreate] at h
    repeat' split at h
    all_goals first
      | (simp only [Except.ok.injEq] at h; rw [← h])
      | exact Except.noConfusion h
  · intro cfg n nat dh rs re lt d1 d2 nk pc out h
    simp only [HandleBridgeAttach] at h
    repeat' split at h
    all_goals first
      | (simp only [Except.ok.injEq] at h; rw [← h])
      | exact Except.noConfusion h

/-- Witness for C6 (amended) at concrete inputs. -/
theorem handlers_persist_then_reconcile_witness :
    ([Effect.save, Effect.nftApply] = [Effect.save, Effect.nftApply]) ∧
    ([Effect.save, Effect.dnsmasqApply] = [Effect.save, Effect.dnsmasqApply]) :=
  ⟨handlers_persist_then_reconcile.1 cfgEx "vmbr1"
      ({cfgEx with bridges := [{bridgeEx with natEnabled := false}]}, [.save, .nftApply]) rfl,
   handlers_persist_then_reconcile.2.2.2.2.2.1 cfgEx "vmbr1" false "" "" "" "" ""
      (cfgEx, [.save, .dnsmasqApply]) rfl⟩

/-- C6 counterexample: toggling NAT performs save then the NAT reconciler
only — no DHCP reconciler call; saving a DHCP pool performs save then the
DHCP reconciler only — no NAT reconciler call. The claim that every
mutation invokes the NAT reconciler followed by the DHCP reconciler fails
on both cited handlers. -/
theorem natToggle_no_dhcp_reconcile :
    HandleNATToggle cfgEx "vmbr1" =
      .ok ({cfgEx with bridges := [{bridgeEx with natEnabled := false}]},
        [.save, .nftApply]) ∧
    Effect.dnsmasqApply ∉ [Effect.save, Effect.nftApply] ∧
    HandleDHCPSave cfgEx "vmbr1" false "" "" "" "" "" =
      .ok (cfgEx, [.save, .dnsmasqApply]) ∧
    Effect.nftApply ∉ [Effect.save, Effect.dnsmasqApply] :=
  ⟨rfl, by decide, rfl, by decide⟩

/-- The forward named `"a"` of the invariant-violation run. -/
def fwdA (en : Bool) : PortForward := ⟨"a", "tcp", 80, "10.0.0.5", 80, "", en⟩

/-- The forward named `"b"` of the invariant-violation run. -/
def fwdB : PortForward := ⟨"b", "tcp", 80, "10.0.0.6", 80, "", true⟩

/-- The single bridge of the invariant-violation run, with the given
forward list. -/
def stepBridge (fs : List PortForward) : BridgeConfig :=
  ⟨"vmbr1", "10.0.0.0/24", "10.0.0.1", false, none, fs⟩

/-- The model of the invariant-violation run. -/
def stepCfg (fs : List PortForward) : Config :=
  ⟨"eth0", [stepBridge fs], "/etc/pnat/pnat.json"⟩

/-- C2 counterexample: the port-conflict invariant is not maintained in
every reachable state. Via the web handlers: create a tcp forward on port
80, toggle it off, create a second tcp forward on port 80 (accepted — the
scan only looks at enabled forwards), toggle the first back on; the
resulting model has two enabled tcp forwards on external port 80. The TUI
add path reaches the same violation in two steps with no check at all. -/
theorem forward_conflict_invariant_violated :
    HandleForwardCreate (stepCfg []) "vmbr1" "tcp" 80 "10.0.0.5" 80 "" "a" =
      .ok (stepCfg [fwdA true], [.save, .nftApply]) ∧
    HandleForwardToggle (stepCfg [fwdA true]) "a" =
      .ok (stepCfg [fwdA false], [.save, .nftApply]) ∧
    HandleForwardCreate (stepCfg [fwdA false]) "vmbr1" "tcp" 80 "10.0.0.6" 80 "" "b" =
      .ok (stepCfg [fwdA false, fwdB], [.save, .nftApply]) ∧
    HandleForwardToggle (stepCfg [fwdA false, fwdB]) "a" =
      .ok (stepCfg [fwdA true, fwdB], [.save, .nftApply]) ∧
    (tuiAddForward (stepCfg [fwdA true]) "vmbr1" "tcp" 80 "10.0.0.6" 80 "" "b").1 =
      stepCfg [fwdA true, fwdB] ∧
    pairwiseNoConflict (enabledForwards (stepCfg [fwdA true, fwdB])) = false :=
  ⟨rfl, rfl, rfl, rfl, rfl, by decide⟩

/-- C2 (amended): `HandleForwardCreate` rejects a forward whose external
port is used by an existing *enabled* forward with overlapping protocol
(equal protocols overlap, and `"tcp+udp"` overlaps either; tcp and udp
are independent), leaving the model unchanged, and otherwise appends the
new forward enabled — in particular a tcp and a udp forward may share an
external port. The conflict scan looks only at enabled forwards, and no
other forward-mutating operation re-checks it, so the invariant holds for
creation but is not maintained by toggling. -/
theorem forwardCreate_conflict_rules (cfg : Config) (bridgeName protocol : String)
    (extPort : Nat) (intIP : String) (intPort : Nat) (comment id : String)
    (br : BridgeConfig) (ipnet : IPNet) (ip4 : Nat)
    (hep : ¬ (extPort = 0 ∨ 65535 < extPort))
    (hip : ¬ (intPort = 0 ∨ 65535 < intPort))
    (hparse : parseIPv4 intIP = some ip4)
    (hproto : protocol = "tcp" ∨ protocol = "udp" ∨ protocol = "tcp+udp")
    (hbr : findBridge cfg bridgeName = some br)
    (hsub : parseCIDRv4 br.subnet = some ipnet)
    (hin : ipInNet ip4 ipnet = true) :
    (forwardConflict cfg extPort protocol = true →
      HandleForwardCreate cfg bridgeName protocol extPort intIP intPort comment id =
        .error ("External port " ++ toString extPort ++ " already in use")) ∧
    (forwardConflict cfg extPort protocol = false →
      HandleForwardCreate cfg bridgeName protocol extPort intIP intPort comment id =
        .ok ({cfg with bridges := (updateFirstBridge cfg.bridges bridgeName
                (fun b => {b with forwards :=
                  (b.forwards ++ [⟨id, protocol, extPort, intIP, intPort, comment, true⟩])}))},
          [.save, .nftApply])) ∧
    (forwardConflict cfg extPort protocol = true ↔
      ∃ b ∈ cfg.bridges, ∃ f ∈ b.forwards,
        f.enabled = true ∧ f.extPort = extPort ∧
          protocolsOverlap f.protocol protocol = true) ∧
    protocolsOverlap "tcp" "udp" = false ∧
    protocolsOverlap "udp" "tcp" = false ∧
    (∀ p, protocolsOverlap "tcp+udp" p = true) ∧
    (∀ p, protocolsOverlap p "tcp+udp" = true) := by
  refine ⟨?_, ?_, ?_, by decide, by decide,
    fun p => by simp [protocolsOverlap], fun p => by simp [protocolsOverlap]⟩
  · intro hc
    simp [HandleForwardCreate, hep, hip, hparse, hbr, hsub, hin, hc, hproto]
  · intro hc
    simp [HandleForwardCreate, hep, hip, hparse, hbr, hsub, hin, hc, hproto]
  · simp only [forwardConflict, protocolsOverlap, List.any_eq_true, Bool.and_eq_true,
      Bool.or_eq_true, beq_iff_eq]
    constructor
    · rintro ⟨b, hb, f, hf, ⟨hport, hen⟩, hover⟩
      exact ⟨b, hb, f, hf, hen, hport, by tauto⟩
    · rintro ⟨b, hb, f, hf, hen, hport, hover⟩
      exact ⟨b, hb, f, hf, ⟨hport, hen⟩, by tauto⟩

/-- A model with one existing enabled tcp forward on external port 8080. -/
def cfgC2 : Config := stepCfg [⟨"x", "tcp", 8080, "10.0.0.9", 80, "", true⟩]

/-- Witness for C2 (amended): against an enabled tcp forward on port 8080,
creating another tcp forward on 8080 is rejected with the conflict error,
and creating a udp forward on 8080 is accepted. -/
theorem forwardCreate_conflict_rules_witness :
    HandleForwardCreate cfgC2 "vmbr1" "tcp" 8080 "10.0.0.5" 80 "" "n1" =
      .error ("External port " ++ toString 8080 ++ " already in use") ∧
    HandleForwardCreate cfgC2 "vmbr1" "udp" 8080 "10.0.0.5" 80 "" "n2" =
      .ok (stepCfg [⟨"x", "tcp", 8080, "10.0.0.9", 80, "", true⟩,
          ⟨"n2", "udp", 8080, "10.0.0.5", 80, "", true⟩],
        [.save, .nftApply]) :=
  ⟨(forwardCreate_conflict_rules cfgC2 "vmbr1" "tcp" 8080 "10.0.0.5" 80 "" "n1"
      (stepBridge [⟨"x", "tcp", 8080, "10.0.0.9", 80, "", true⟩]) ⟨10 * 2 ^ 24, 24⟩
      (10 * 2 ^ 24 + 5) (by decide) (by decide) (by decide) (Or.inl rfl)
      (by decide) (by decide) (by decide)).1 (by decide),
   (forwardCreate_conflict_rules cfgC2 "vmbr1" "udp" 8080 "10.0.0.5" 80 "" "n2"
      (stepBridge [⟨"x", "tcp", 8080, "10.0.0.9", 80, "", true⟩]) ⟨10 * 2 ^ 24, 24⟩
      (10 * 2 ^ 24 + 5) (by decide) (by decide) (by decide) (Or.inr (Or.inl rfl))
      (by decide) (by decide) (by decide)).2.1 (by decide)⟩

/-! ## Derived IP-usage view (Go file `part_005`, `buildUsedIPs`)

The Go code accumulates per-bridge entries in a map keyed by bridge name
(`bridgeBySubnet`), in three passes (model pass, lease pass, VM pass),
then deduplicates by the `source + "|" + ip` key, sorts by address text
and emits entries in bridge-name order. The map becomes a function
`String → Option BridgeUsedIPs`; Go's `sort.Slice` with a `<` comparator
is modelled as a sort by the same comparator (it agrees with `sort.Slice`
up to the order of ties, which `sort.Slice` leaves unspecified). -/

/-- `UsedIP` from the source. -/
structure UsedIP where
  ip : String
  source : String
  vmid : Int
  vmName : String
  mac : String
deriving DecidableEq

/-- `BridgeUsedIPs` from the source. -/
structure BridgeUsedIPs where
  bridge : String
  subnet : String
  ips : List UsedIP
deriving DecidableEq

/-- `VMNICView` from the source (leaving out presentation-only fields
keeps nothing the view reads). -/
structure VMNICView where
  key : String
  model : String
  mac : String
  bridge : String
  ips : List String
  leaseIP : String
  leaseHost : String
deriving DecidableEq

/-- `VMView` from the source. -/
structure VMView where
  vmid : Int
  name : String
  type_ : String
  status : String
  nics : List VMNICView
deriving DecidableEq

/-- The `bridgeBySubnet` map: bridge name to accumulated entry. -/
def BMap := String → Option BridgeUsedIPs

/-- Map store (overwrites). -/
def mupdate (m : BMap) (k : String) (v : BridgeUsedIPs) : BMap :=
  fun n => if n = k then some v else m n

/-- Append one used-IP to an existing entry's list. -/
def mappend (m : BMap) (k : String) (e : UsedIP) : BMap :=
  fun n => if n = k then (m n).map (fun en => {en with ips := (en.ips ++ [e])}) else m n

/-- The entry the first pass builds for one bridge: gateway (when
non-empty) then every forward's internal target (when non-empty, enabled
or not). -/
def initEntry (b : BridgeConfig) : BridgeUsedIPs :=
  { bridge := b.name, subnet := b.subnet,
    ips := (if b.gatewayIP ≠ "" then [⟨b.gatewayIP, "gateway", 0, "", ""⟩] else []) ++
      b.forwards.filterMap (fun f =>
        if f.intIP = "" then none else some ⟨f.intIP, "forward", 0, "", ""⟩) }

/-- The first pass of `buildUsedIPs`. -/
def pass1 (bs : List BridgeConfig) : BMap :=
  bs.foldl (fun m b => mupdate m b.name (initEntry b)) (fun _ => none)

/-- The shared inner loop of the lease and VM passes: append the entry to
every bridge whose subnet contains the address. -/
def appendToContaining (bs : List BridgeConfig) (ip4 : Nat) (e : UsedIP) (m : BMap) : BMap :=
  bs.foldl (fun m' b =>
    match parseCIDRv4 b.subnet with
    | none => m'
    | some ipnet => if ipInNet ip4 ipnet then mappend m' b.name e else m') m

/-- The used-IP entry recorded for a lease. -/
def leaseUsedIP (l : Lease) : UsedIP := ⟨l.ip, "dhcp", 0, "", l.mac⟩

/-- The second (lease) pass of `buildUsedIPs`. -/
def pass2 (bs : List BridgeConfig) (m : BMap) (leases : List Lease) : BMap :=
  leases.foldl (fun m' l =>
    match parseIPv4 l.ip with
    | none => m'
    | some ip4 => appendToContaining bs ip4 (leaseUsedIP l) m') m

/-- `strings.Split(s, "/")[0]`: the text before the first slash. -/
def beforeSlash (s : String) : String :=
  String.mk (s.data.takeWhile (fun c => ¬ c = '/'))

/-- The used-IP entry recorded for a VM NIC address. -/
def vmUsedIP (vm : VMView) (nic : VMNICView) (ipStr : String) : UsedIP :=
  ⟨beforeSlash ipStr, "vm", vm.vmid, vm.name, nic.mac⟩

/-- The third (VM) pass of `buildUsedIPs`. -/
def pass3 (bs : List BridgeConfig) (m : BMap) (vms : List VMView) : BMap :=
  vms.foldl (fun m1 vm =>
    vm.nics.foldl (fun m2 nic =>
      nic.ips.foldl (fun m3 ipStr =>
        match parseIPv4 (beforeSlash ipStr) with
        | none => m3
        | some ip4 => appendToContaining bs ip4 (vmUsedIP vm nic ipStr) m3) m2) m1) m

/-- The dedup loop of `buildUsedIPs`: drop empty addresses, keep the first
entry for each `source + "|" + ip` key. -/
def dedupGo (seen : List String) : List UsedIP → List UsedIP
  | [] => []
  | u :: rest =>
    if u.ip = "" then dedupGo seen rest
    else if (u.source ++ "|" ++ u.ip) ∈ seen then dedupGo seen rest
    else u :: dedupGo ((u.source ++ "|" ++ u.ip) :: seen) rest

/-- Go's `<` on strings, character by character (byte order and code-point
order agree on UTF-8 text). -/
def strLessChars : List Char → List Char → Bool
  | [], [] => false
  | [], _ :: _ => true
  | _ :: _, [] => false
  | a :: as, b :: bs =>
    if a < b then true
    else if b < a then false
    else strLessChars as bs

/-- `a < b` on Go strings. -/
def strLess (a b : String) : Bool := strLessChars a.data b.data

/-- The sort order of the per-bridge list: `u` before `v` when `v.ip` is
not less than `u.ip` (the `sort.Slice` comparator's non-strict form). -/
def ipLe (u v : UsedIP) : Prop := strLess v.ip u.ip = false

instance : DecidableRel ipLe := fun _ _ => inferInstanceAs (Decidable (_ = false))

/-- The sort order of the output list: by bridge name. -/
def bridgeLe (x y : BridgeUsedIPs) : Prop := strLess y.bridge x.bridge = false

instance : DecidableRel bridgeLe := fun _ _ => inferInstanceAs (Decidable (_ = false))

/-- The per-bridge sort `sort.Slice(ips, by IP <)`. -/
def sortIPs (l : List UsedIP) : List UsedIP :=
  List.insertionSort ipLe l

/-- `buildUsedIPs` from the source: three passes over the map, then
per-bridge dedup + sort, emitted in bridge-name order. -/
def buildUsedIPs (cfg : Config) (leases : List Lease) (vms : List VMView) :
    List BridgeUsedIPs :=
  let m := pass3 cfg.bridges (pass2 cfg.bridges (pass1 cfg.bridges) leases) vms
  List.insertionSort bridgeLe
    (cfg.bridges.filterMap (fun b =>
      (m b.name).map (fun entry =>
        { bridge := entry.bridge, subnet := entry.subnet,
          ips := sortIPs (dedupGo [] entry.ips) })))

/-! ### Order facts about the Go string comparison -/

theorem strLessChars_asymm : ∀ a b : List Char,
    strLessChars a b = true → strLessChars b a = false := by
  intro a
  induction a with
  | nil =>
    intro b h
    cases b <;> simp_all [strLessChars]
  | cons x xs ih =>
    intro b h
    cases b with
    | nil => simp [strLessChars] at h
    | cons y ys =>
      rw [strLessChars] at h ⊢
      by_cases h1 : x < y
      · rw [if_neg (lt_asymm h1), if_pos h1]
      · rw [if_neg h1] at h
        by_cases h2 : y < x
        · rw [if_pos h2] at h; cases h
        · rw [if_neg h2] at h
          rw [if_neg h2, if_neg h1]
          exact ih ys h

theorem strLessChars_trans : ∀ a b c : List Char,
    strLessChars a b = true → strLessChars b c = true → strLessChars a c = true := by
  intro a
  induction a with
  | nil =>
    intro b c hab hbc
    cases b with
    | nil => simp [strLessChars] at hab
    | cons y ys =>
      cases c with
      | nil => simp [strLessChars] at hbc
      | cons z zs => simp [strLessChars]
  | cons x xs ih =>
    intro b c hab hbc
    cases b with
    | nil => simp [strLessChars] at hab
    | cons y ys =>
      cases c with
      | nil => simp [strLessChars] at hbc
      | cons z zs =>
        rw [strLessChars] at hab hbc ⊢
        by_cases h1 : x < y
        · by_cases h2 : y < z
          · rw [if_pos (lt_trans h1 h2)]
          · rw [if_neg h2] at hbc
            by_cases h3 : z < y
            · rw [if_pos h3] at hbc; cases hbc
            · have hyz : y = z := le_antisymm (not_lt.mp h3) (not_lt.mp h2)
              subst hyz
              rw [if_pos h1]
        · rw [if_neg h1] at hab
          by_cases h3 : y < x
          · rw [if_pos h3] at hab; cases hab
          · rw [if_neg h3] at hab
            have hxy : x = y := le_antisymm (not_lt.mp h3) (not_lt.mp h1)
            subst hxy
            by_cases h2 : x < z
            · rw [if_pos h2]
            · rw [if_neg h2] at hbc ⊢
              by_cases h4 : z < x
              · rw [if_pos h4] at hbc; cases hbc
              · rw [if_neg h4] at hbc ⊢
                exact ih ys zs hab hbc

theorem strLessChars_conn : ∀ a b : List Char,
    strLessChars a b = false → strLessChars b a = false → a = b := by
  intro a
  induction a with
  | nil =>
    intro b h1 _
    cases b with
    | nil => rfl
    | cons y ys => simp [strLessChars] at h1
  | cons x xs ih =>
    intro b h1 h2
    cases b with
    | nil => simp [strLessChars] at h2
    | cons y ys =>
      rw [strLessChars] at h1 h2
      by_cases hxy : x < y
      · rw [if_pos hxy] at h1; cases h1
      · by_cases hyx : y < x
        · rw [if_pos hyx] at h2; cases h2
        · rw [if_neg hxy, if_neg hyx] at h1
          rw [if_neg hyx, if_neg hxy] at h2
          have hx : x = y := le_antisymm (not_lt.mp hyx) (not_lt.mp hxy)
          rw [hx, ih ys h1 h2]

instance : IsTotal UsedIP ipLe where
  total u v := by
    by_cases h : strLess v.ip u.ip = false
    · exact Or.inl h
    · refine Or.inr ?_
      rw [ipLe, strLess, strLessChars_asymm _ _ (Bool.of_not_eq_false h)]

instance : IsTrans UsedIP ipLe where
  trans u v w huv hvw := by
    rw [ipLe, strLess] at *
    by_cases h : strLessChars w.ip.data u.ip.data = true
    · exfalso
      by_cases h2 : strLessChars v.ip.data w.ip.data = true
      · exact absurd (strLessChars_trans _ _ _ h2 h) (by simp [huv])
      · have : v.ip.data = w.ip.data :=
          strLessChars_conn _ _ (Bool.of_not_eq_true h2) hvw
        rw [this] at huv
        exact absurd h (by simp [huv])
    · exact Bool.of_not_eq_true h

end PNAT


namespace PNAT

/-! ### Reducing the map-building passes to per-key contribution lists -/

/-- What one `appendToContaining` sweep contributes at key `k`. -/
def containContrib (bs : List BridgeConfig) (ip4 : Nat) (e : UsedIP) (k : String) :
    List UsedIP :=
  bs.flatMap fun b =>
    match parseCIDRv4 b.subnet with
    | none => []
    | some ipnet => if ipInNet ip4 ipnet ∧ b.name = k then [e] else []

theorem appendToContaining_lookup (bs : List BridgeConfig) (ip4 : Nat) (e : UsedIP)
    (m : BMap) (k : String) :
    appendToContaining bs ip4 e m k =
      (m k).map (fun en => {en with ips := (en.ips ++ containContrib bs ip4 e k)}) := by
  induction bs generalizing m with
  | nil =>
    cases h : m k <;> simp [appendToContaining, containContrib, h]
  | cons b rest ih =>
    have hstep : appendToContaining (b :: rest) ip4 e m =
        appendToContaining rest ip4 e
          (match parseCIDRv4 b.subnet with
           | none => m
           | some ipnet => if ipInNet ip4 ipnet then mappend m b.name e else m) := rfl
    rw [hstep, ih]
    cases hp : parseCIDRv4 b.subnet with
    | none =>
      cases h : m k <;> simp [containContrib, hp, h, List.flatMap_cons]
    | some ipnet =>
      by_cases hc : ipInNet ip4 ipnet = true
      · by_cases hk : k = b.name
        · subst hk
          cases h : m b.name <;>
            simp [mappend, containContrib, hp, hc, h, List.flatMap_cons,
              List.append_assoc]
        · have hk' : ¬ b.name = k := fun hbk => hk hbk.symm
          cases h : m k <;>
            simp [mappend, containContrib, hp, hc, h, hk, hk', List.flatMap_cons]
      · cases h : m k <;>
          simp [containContrib, hp, hc, h, List.flatMap_cons]

/-- What the lease pass contributes at key `k`. -/
def leaseContrib (bs : List BridgeConfig) (leases : List Lease) (k : String) :
    List UsedIP :=
  leases.flatMap fun l =>
    match parseIPv4 l.ip with
    | none => []
    | some ip4 => containContrib bs ip4 (leaseUsedIP l) k

theorem pass2_lookup (bs : List BridgeConfig) (leases : List Lease) (m : BMap)
    (k : String) :
    pass2 bs m leases k =
      (m k).map (fun en => {en with ips := (en.ips ++ leaseContrib bs leases k)}) := by
  induction leases generalizing m with
  | nil =>
    cases h : m k <;> simp [pass2, leaseContrib, h]
  | cons l rest ih =>
    have hstep : pass2 bs m (l :: rest) =
        pass2 bs
          (match parseIPv4 l.ip with
           | none => m
           | some ip4 => appendToContaining bs ip4 (leaseUsedIP l) m) rest := rfl
    rw [hstep, ih]
    cases hp : parseIPv4 l.ip with
    | none =>
      cases h : m k <;> simp [leaseContrib, hp, h, List.flatMap_cons]
    | some ip4 =>
      cases h : m k <;>
        simp [appendToContaining_lookup, leaseContrib, hp, h, List.flatMap_cons,
          List.append_assoc]

/-- What one NIC's address list contributes at key `k`. -/
def nicContrib (bs : List BridgeConfig) (vm : VMView) (nic : VMNICView) (k : String) :
    List UsedIP :=
  nic.ips.flatMap fun ipStr =>
    match parseIPv4 (beforeSlash ipStr) with
    | none => []
    | some ip4 => containContrib bs ip4 (vmUsedIP vm nic ipStr) k

/-- What the VM pass contributes at key `k`. -/
def vmContrib (bs : List BridgeConfig) (vms : List VMView) (k : String) :
    List UsedIP :=
  vms.flatMap fun vm => vm.nics.flatMap fun nic => nicContrib bs vm nic k

theorem nicIPsFold_lookup (bs : List BridgeConfig) (vm : VMView) (nic : VMNICView)
    (ips : List String) (m : BMap) (k : String) :
    (ips.foldl (fun m3 ipStr =>
      match parseIPv4 (beforeSlash ipStr) with
      | none => m3
      | some ip4 => appendToContaining bs ip4 (vmUsedIP vm nic ipStr) m3) m) k =
      (m k).map (fun en => {en with ips := (en.ips ++
        ips.flatMap (fun ipStr =>
          match parseIPv4 (beforeSlash ipStr) with
          | none => []
          | some ip4 => containContrib bs ip4 (vmUsedIP vm nic ipStr) k))}) := by
  induction ips generalizing m with
  | nil =>
    cases h : m k <;> simp [h]
  | cons s rest ih =>
    rw [List.foldl_cons, ih]
    cases hp : parseIPv4 (beforeSlash s) with
    | none =>
      cases h : m k <;> simp [hp, h, List.flatMap_cons]
    | some ip4 =>
      cases h : m k <;>
        simp [appendToContaining_lookup, hp, h, List.flatMap_cons, List.append_assoc]

theorem nicsFold_lookup (bs : List BridgeConfig) (vm : VMView)
    (nics : List VMNICView) (m : BMap) (k : String) :
    (nics.foldl (fun m2 nic =>
      nic.ips.foldl (fun m3 ipStr =>
        match parseIPv4 (beforeSlash ipStr) with
        | none => m3
        | some ip4 => appendToContaining bs ip4 (vmUsedIP vm nic ipStr) m3) m2) m) k =
      (m k).map (fun en => {en with ips := (en.ips ++
        nics.flatMap (fun nic => nicContrib bs vm nic k))}) := by
  induction nics generalizing m with
  | nil =>
    cases h : m k <;> simp [h]
  | cons nic rest ih =>
    rw [List.foldl_cons, ih, nicIPsFold_lookup]
    cases h : m k <;>
      simp [h, nicContrib, List.flatMap_cons, List.append_assoc]

theorem pass3_lookup (bs : List BridgeConfig) (vms : List VMView) (m : BMap)
    (k : String) :
    pass3 bs m vms k =
      (m k).map (fun en => {en with ips := (en.ips ++ vmContrib bs vms k)}) := by
  induction vms generalizing m with
  | nil =>
    cases h : m k <;> simp [pass3, vmContrib, h]
  | cons vm rest ih =>
    have hstep : pass3 bs m (vm :: rest) =
        pass3 bs
          (vm.nics.foldl (fun m2 nic =>
            nic.ips.foldl (fun m3 ipStr =>
              match parseIPv4 (beforeSlash ipStr) with
              | none => m3
              | some ip4 => appendToContaining bs ip4 (vmUsedIP vm nic ipStr) m3) m2) m)
          rest := rfl
    rw [hstep, ih, nicsFold_lookup]
    cases h : m k <;>
      simp [h, vmContrib, List.flatMap_cons, List.append_assoc]

theorem pass1Fold_untouched (bs : List BridgeConfig) (m : BMap) (k : String)
    (h : ∀ b ∈ bs, b.name ≠ k) :
    (bs.foldl (fun m' b => mupdate m' b.name (initEntry b)) m) k = m k := by
  induction bs generalizing m with
  | nil => rfl
  | cons b rest ih =>
    rw [List.foldl_cons, ih _ (fun b' hb' => h b' (List.mem_cons_of_mem _ hb'))]
    have hbk : ¬ k = b.name := fun hk => h b (List.mem_cons_self b rest) hk.symm
    simp [mupdate, hbk]

theorem pass1_lookup (bs : List BridgeConfig)
    (hnodup : (bs.map (·.name)).Nodup) (b : BridgeConfig) (hb : b ∈ bs) :
    ∀ m : BMap,
      (bs.foldl (fun m' b' => mupdate m' b'.name (initEntry b')) m) b.name =
        some (initEntry b) := by
  induction bs with
  | nil => cases hb
  | cons b' rest ih =>
    have hpair : b'.name ∉ rest.map (·.name) ∧ (rest.map (·.name)).Nodup := by
      rw [List.map_cons, List.nodup_cons] at hnodup
      exact hnodup
    intro m
    rw [List.foldl_cons]
    rcases List.mem_cons.mp hb with rfl | hb'
    · rw [pass1Fold_untouched]
      · simp [mupdate]
      · intro b'' hb'' he
        exact hpair.1 (he ▸ List.mem_map_of_mem (·.name) hb'')
    · exact ih hpair.2 hb' _

end PNAT

namespace PNAT

theorem containContrib_of_absent (bs : List BridgeConfig) (ip4 : Nat) (e : UsedIP)
    (k : String) :
    (∀ b ∈ bs, ¬ b.name = k) → containContrib bs ip4 e k = [] := by
  induction bs with
  | nil => intro _; rfl
  | cons b rest ih =>
    intro h
    have h1 : ¬ b.name = k := h b (List.mem_cons_self b rest)
    have ih' := ih (fun b' hb' => h b' (List.mem_cons_of_mem _ hb'))
    simp only [containContrib, List.flatMap_cons] at ih' ⊢
    cases hp : parseCIDRv4 b.subnet <;> simp [hp, h1, ih']

theorem containContrib_self (bs : List BridgeConfig) (ip4 : Nat) (e : UsedIP) :
    ∀ b ∈ bs, (bs.map (·.name)).Nodup →
      containContrib bs ip4 e b.name =
        (match parseCIDRv4 b.subnet with
         | none => []
         | some ipnet => if ipInNet ip4 ipnet then [e] else []) := by
  induction bs with
  | nil => intro b hb; cases hb
  | cons b' rest ih =>
    intro b hb hnodup
    have hpair : b'.name ∉ rest.map (·.name) ∧ (rest.map (·.name)).Nodup := by
      rw [List.map_cons, List.nodup_cons] at hnodup
      exact hnodup
    rcases List.mem_cons.mp hb with rfl | hb'
    · have habs := containContrib_of_absent rest ip4 e b.name
        (fun b'' hb'' he => hpair.1 (he ▸ List.mem_map_of_mem (·.name) hb''))
      simp only [containContrib, List.flatMap_cons] at habs ⊢
      cases hp : parseCIDRv4 b.subnet <;> simp [hp, habs]
    · have hne : ¬ b'.name = b.name :=
        fun he => hpair.1 (he ▸ List.mem_map_of_mem (·.name) hb')
      have ih' := ih b hb' hpair.2
      simp only [containContrib, List.flatMap_cons] at ih' ⊢
      cases hp : parseCIDRv4 b'.subnet <;> simp [hp, hne, ih']

/-- Everything the three passes accumulate for bridge `b` (names unique). -/
def rawEntry (cfg : Config) (leases : List Lease) (vms : List VMView)
    (b : BridgeConfig) : List UsedIP :=
  (initEntry b).ips ++ leaseContrib cfg.bridges leases b.name ++
    vmContrib cfg.bridges vms b.name

theorem buildUsedIPs_mem (cfg : Config) (leases : List Lease) (vms : List VMView)
    (hnodup : (cfg.bridges.map (·.name)).Nodup) (b : BridgeConfig)
    (hb : b ∈ cfg.bridges) :
    (⟨b.name, b.subnet, sortIPs (dedupGo [] (rawEntry cfg leases vms b))⟩ :
      BridgeUsedIPs) ∈ buildUsedIPs cfg leases vms := by
  have hm : pass3 cfg.bridges (pass2 cfg.bridges (pass1 cfg.bridges) leases) vms b.name =
      some ⟨b.name, b.subnet, rawEntry cfg leases vms b⟩ := by
    rw [pass3_lookup, pass2_lookup,
      show pass1 cfg.bridges b.name = some (initEntry b) from
        pass1_lookup cfg.bridges hnodup b hb _]
    simp [initEntry, rawEntry, List.append_assoc]
  simp only [buildUsedIPs]
  refine (List.perm_insertionSort bridgeLe _).mem_iff.mpr ?_
  refine List.mem_filterMap.mpr ⟨b, hb, ?_⟩
  rw [hm]
  rfl

end PNAT

namespace PNAT

/-! ### The dedup loop: membership, key uniqueness -/

theorem dedupGo_subset (l : List UsedIP) (seen : List String) (u : UsedIP)
    (h : u ∈ dedupGo seen l) : u ∈ l := by
  induction l generalizing seen with
  | nil => cases h
  | cons v rest ih =>
    rw [dedupGo] at h
    by_cases h0 : v.ip = ""
    · rw [if_pos h0] at h
      exact List.mem_cons_of_mem _ (ih _ h)
    · rw [if_neg h0] at h
      by_cases hs : (v.source ++ "|" ++ v.ip) ∈ seen
      · rw [if_pos hs] at h
        exact List.mem_cons_of_mem _ (ih _ h)
      · rw [if_neg hs] at h
        rcases List.mem_cons.mp h with rfl | h'
        · exact List.mem_cons_self _ _
        · exact List.mem_cons_of_mem _ (ih _ h')

theorem usedKey_inj (s₁ i₁ s₂ i₂ : String)
    (h₁ : s₁ = "gateway" ∨ s₁ = "forward" ∨ s₁ = "dhcp" ∨ s₁ = "vm")
    (h₂ : s₂ = "gateway" ∨ s₂ = "forward" ∨ s₂ = "dhcp" ∨ s₂ = "vm")
    (h : s₁ ++ "|" ++ i₁ = s₂ ++ "|" ++ i₂) : s₁ = s₂ ∧ i₁ = i₂ := by
  rcases h₁ with rfl | rfl | rfl | rfl <;> rcases h₂ with rfl | rfl | rfl | rfl <;>
    first
      | exact ⟨rfl, by
          have hd := congrArg String.data h
          simp only [String.data_append] at hd
          exact String.ext (List.append_cancel_left hd)⟩
      | (exfalso
         have hd := congrArg String.data h
         injection hd with hx _
         exact absurd hx (by decide))

theorem dedupGo_pair_mem_iff (src ip : String) :
    ∀ (l : List UsedIP) (seen : List String),
      (∀ u ∈ l, ∀ v ∈ l,
        u.source ++ "|" ++ u.ip = v.source ++ "|" ++ v.ip →
          u.source = v.source ∧ u.ip = v.ip) →
      ((∃ u ∈ dedupGo seen l, u.source = src ∧ u.ip = ip) ↔
        ((src ++ "|" ++ ip) ∉ seen ∧ ¬ ip = "" ∧
          ∃ u ∈ l, u.source = src ∧ u.ip = ip)) := by
  intro l
  induction l with
  | nil =>
    intro seen _
    simp [dedupGo]
  | cons u rest ih =>
    intro seen hkey
    have hkey' : ∀ a ∈ rest, ∀ v ∈ rest,
        a.source ++ "|" ++ a.ip = v.source ++ "|" ++ v.ip →
          a.source = v.source ∧ a.ip = v.ip :=
      fun a ha v hv => hkey a (List.mem_cons_of_mem _ ha) v (List.mem_cons_of_mem _ hv)
    rw [dedupGo]
    by_cases h0 : u.ip = ""
    · rw [if_pos h0, ih seen hkey']
      constructor
      · rintro ⟨hks, hip, w, hw, hs⟩
        exact ⟨hks, hip, w, List.mem_cons_of_mem _ hw, hs⟩
      · rintro ⟨hks, hip, w, hw, hsrc, hip'⟩
        rcases List.mem_cons.mp hw with rfl | hw'
        · exact absurd (hip'.symm.trans h0) hip
        · exact ⟨hks, hip, w, hw', hsrc, hip'⟩
    · rw [if_neg h0]
      by_cases hs : (u.source ++ "|" ++ u.ip) ∈ seen
      · rw [if_pos hs, ih seen hkey']
        constructor
        · rintro ⟨hks, hip, w, hw, hp⟩
          exact ⟨hks, hip, w, List.mem_cons_of_mem _ hw, hp⟩
        · rintro ⟨hks, hip, w, hw, hsrc, hip'⟩
          rcases List.mem_cons.mp hw with rfl | hw'
          · exact absurd (hsrc ▸ hip' ▸ hs) hks
          · exact ⟨hks, hip, w, hw', hsrc, hip'⟩
      · rw [if_neg hs]
        constructor
        · rintro ⟨w, hw, hsrc, hip'⟩
          rcases List.mem_cons.mp hw with rfl | hw'
          · refine ⟨?_, ?_, w, List.mem_cons_self _ _, hsrc, hip'⟩
            · rw [← hsrc, ← hip']
              exact hs
            · rw [← hip']
              exact h0
          · obtain ⟨hks', hip, w', hw'', hp⟩ :=
              (ih ((u.source ++ "|" ++ u.ip) :: seen) hkey').mp ⟨w, hw', hsrc, hip'⟩
            exact ⟨fun hmem => hks' (List.mem_cons_of_mem _ hmem), hip, w',
              List.mem_cons_of_mem _ hw'', hp⟩
        · rintro ⟨hks, hip, w, hw, hsrc, hip'⟩
          by_cases hum : u.source = src ∧ u.ip = ip
          · exact ⟨u, List.mem_cons_self _ _, hum⟩
          · rcases List.mem_cons.mp hw with rfl | hw'
            · exact absurd ⟨hsrc, hip'⟩ hum
            · have hneq : ¬ (src ++ "|" ++ ip) = (u.source ++ "|" ++ u.ip) := by
                intro he
                have hw2 : w.source ++ "|" ++ w.ip = u.source ++ "|" ++ u.ip := by
                  rw [hsrc, hip']
                  exact he
                have hww := hkey w hw u (List.mem_cons_self _ _) hw2
                exact hum ⟨hww.1.symm.trans hsrc, hww.2.symm.trans hip'⟩
              obtain ⟨w', hw'', hp⟩ :=
                (ih ((u.source ++ "|" ++ u.ip) :: seen) hkey').mpr
                  ⟨by
                    intro hmem
                    rcases List.mem_cons.mp hmem with he | hmem'
                    · exact hneq he
                    · exact hks hmem', hip, w, hw', hsrc, hip'⟩
              exact ⟨w', List.mem_cons_of_mem _ hw'', hp⟩

theorem dedupGo_keys (l : List UsedIP) : ∀ seen : List String,
    ((dedupGo seen l).map (fun u => u.source ++ "|" ++ u.ip)).Nodup ∧
    ∀ u ∈ dedupGo seen l, (u.source ++ "|" ++ u.ip) ∉ seen := by
  induction l with
  | nil =>
    intro seen
    exact ⟨List.nodup_nil, by simp [dedupGo]⟩
  | cons u rest ih =>
    intro seen
    simp only [dedupGo]
    by_cases h0 : u.ip = ""
    · rw [if_pos h0]
      exact ih seen
    · rw [if_neg h0]
      by_cases hs : (u.source ++ "|" ++ u.ip) ∈ seen
      · rw [if_pos hs]
        exact ih seen
      · rw [if_neg hs]
        obtain ⟨hnd, hmem⟩ := ih ((u.source ++ "|" ++ u.ip) :: seen)
        constructor
        · rw [List.map_cons, List.nodup_cons]
          refine ⟨?_, hnd⟩
          intro hin
          rcases List.mem_map.mp hin with ⟨w, hw, he⟩
          exact hmem w hw (by rw [he]; exact List.mem_cons_self _ _)
        · intro w hw
          rcases List.mem_cons.mp hw with rfl | hw'
          · exact hs
          · intro hmem'
            exact hmem w hw' (List.mem_cons_of_mem _ hmem')

/-! ### Classifying the raw entries -/

theorem mem_containContrib (bs : List BridgeConfig) (ip4 : Nat) (e : UsedIP)
    (k : String) (u : UsedIP) (h : u ∈ containContrib bs ip4 e k) : u = e := by
  induction bs with
  | nil => cases h
  | cons b rest ih =>
    simp only [containContrib, List.flatMap_cons, List.mem_append] at h
    rcases h with h | h
    · cases hp : parseCIDRv4 b.subnet <;> simp only [hp] at h
      · cases h
      · rename_i ipnet
        by_cases hc : ipInNet ip4 ipnet = true ∧ b.name = k
        · rw [if_pos hc] at h
          exact List.mem_singleton.mp h
        · rw [if_neg hc] at h
          cases h
    · exact ih h

theorem rawEntry_sources (cfg : Config) (leases : List Lease) (vms : List VMView)
    (b : BridgeConfig) (u : UsedIP) (h : u ∈ rawEntry cfg leases vms b) :
    u.source = "gateway" ∨ u.source = "forward" ∨ u.source = "dhcp" ∨ u.source = "vm" := by
  simp only [rawEntry, List.append_assoc, List.mem_append] at h
  rcases h with h | h | h
  · simp only [initEntry, List.mem_append] at h
    rcases h with h | h
    · by_cases hg : b.gatewayIP ≠ ""
      · rw [if_pos hg] at h
        rw [List.mem_singleton.mp h]
        exact Or.inl rfl
      · rw [if_neg hg] at h
        cases h
    · rcases List.mem_filterMap.mp h with ⟨f, _, hfe⟩
      by_cases h0 : f.intIP = ""
      · rw [if_pos h0] at hfe
        cases hfe
      · rw [if_neg h0, Option.some_inj] at hfe
        rw [← hfe]
        exact Or.inr (Or.inl rfl)
  · simp only [leaseContrib] at h
    rcases List.mem_flatMap.mp h with ⟨l, _, hml⟩
    cases hp : parseIPv4 l.ip <;> simp only [hp] at hml
    · cases hml
    · rw [mem_containContrib _ _ _ _ _ hml]
      exact Or.inr (Or.inr (Or.inl rfl))
  · simp only [vmContrib] at h
    rcases List.mem_flatMap.mp h with ⟨vm, _, hv⟩
    rcases List.mem_flatMap.mp hv with ⟨nic, _, hn⟩
    simp only [nicContrib] at hn
    rcases List.mem_flatMap.mp hn with ⟨ipStr, _, hml⟩
    cases hp : parseIPv4 (beforeSlash ipStr) <;> simp only [hp] at hml
    · cases hml
    · rw [mem_containContrib _ _ _ _ _ hml]
      exact Or.inr (Or.inr (Or.inr rfl))

end PNAT

namespace PNAT

theorem initEntry_pair_iff (b : BridgeConfig) (src ip : String) :
    (∃ u ∈ (initEntry b).ips, u.source = src ∧ u.ip = ip) ↔
      ((src = "gateway" ∧ ¬ b.gatewayIP = "" ∧ b.gatewayIP = ip) ∨
       (src = "forward" ∧ ∃ f ∈ b.forwards, ¬ f.intIP = "" ∧ f.intIP = ip)) := by
  simp only [initEntry, List.mem_append]
  constructor
  · rintro ⟨u, hu | hu, hsrc, hip⟩
    · by_cases hg : b.gatewayIP ≠ ""
      · rw [if_pos hg] at hu
        rw [List.mem_singleton.mp hu] at hsrc hip
        exact Or.inl ⟨hsrc.symm, hg, hip⟩
      · rw [if_neg hg] at hu
        cases hu
    · rcases List.mem_filterMap.mp hu with ⟨f, hf, hfe⟩
      by_cases h0 : f.intIP = ""
      · rw [if_pos h0] at hfe
        cases hfe
      · rw [if_neg h0, Option.some_inj] at hfe
        rw [← hfe] at hsrc hip
        exact Or.inr ⟨hsrc.symm, f, hf, h0, hip⟩
  · rintro (⟨rfl, hg, hip⟩ | ⟨rfl, f, hf, h0, hip⟩)
    · exact ⟨⟨b.gatewayIP, "gateway", 0, "", ""⟩,
        Or.inl (by rw [if_pos hg]; exact List.mem_singleton_self _), rfl, hip⟩
    · exact ⟨⟨f.intIP, "forward", 0, "", ""⟩,
        Or.inr (List.mem_filterMap.mpr ⟨f, hf, by rw [if_neg h0]⟩), rfl, hip⟩

theorem leaseRaw_pair_iff (cfg : Config) (leases : List Lease) (b : BridgeConfig)
    (hb : b ∈ cfg.bridges) (hnodup : (cfg.bridges.map (·.name)).Nodup)
    (src ip : String) :
    (∃ u ∈ leaseContrib cfg.bridges leases b.name, u.source = src ∧ u.ip = ip) ↔
      (src = "dhcp" ∧ ∃ l ∈ leases, l.ip = ip ∧ ∃ ip4 ipnet,
        parseIPv4 l.ip = some ip4 ∧ parseCIDRv4 b.subnet = some ipnet ∧
          ipInNet ip4 ipnet = true) := by
  constructor
  · rintro ⟨u, hu, hsrc, hip⟩
    simp only [leaseContrib] at hu
    rcases List.mem_flatMap.mp hu with ⟨l, hl, hml⟩
    cases hp : parseIPv4 l.ip <;> simp only [hp] at hml
    · cases hml
    · rename_i ip4
      rw [containContrib_self cfg.bridges ip4 (leaseUsedIP l) b hb hnodup] at hml
      cases hq : parseCIDRv4 b.subnet <;> simp only [hq] at hml
      · cases hml
      · rename_i ipnet
        by_cases hc : ipInNet ip4 ipnet = true
        · rw [if_pos hc] at hml
          rw [List.mem_singleton.mp hml] at hsrc hip
          exact ⟨hsrc.symm, l, hl, hip, ip4, ipnet, hp, rfl, hc⟩
        · rw [if_neg hc] at hml
          cases hml
  · rintro ⟨rfl, l, hl, hip, ip4, ipnet, hp, hq, hc⟩
    refine ⟨leaseUsedIP l, ?_, rfl, hip⟩
    simp only [leaseContrib]
    refine List.mem_flatMap.mpr ⟨l, hl, ?_⟩
    simp only [hp]
    rw [containContrib_self cfg.bridges ip4 (leaseUsedIP l) b hb hnodup]
    simp only [hq]
    rw [if_pos hc]
    exact List.mem_singleton_self _

theorem vmRaw_pair_iff (cfg : Config) (vms : List VMView) (b : BridgeConfig)
    (hb : b ∈ cfg.bridges) (hnodup : (cfg.bridges.map (·.name)).Nodup)
    (src ip : String) :
    (∃ u ∈ vmContrib cfg.bridges vms b.name, u.source = src ∧ u.ip = ip) ↔
      (src = "vm" ∧ ∃ vm ∈ vms, ∃ nic ∈ vm.nics, ∃ s ∈ nic.ips,
        beforeSlash s = ip ∧ ∃ ip4 ipnet,
          parseIPv4 (beforeSlash s) = some ip4 ∧
            parseCIDRv4 b.subnet = some ipnet ∧ ipInNet ip4 ipnet = true) := by
  constructor
  · rintro ⟨u, hu, hsrc, hip⟩
    simp only [vmContrib] at hu
    rcases List.mem_flatMap.mp hu with ⟨vm, hvm, hv⟩
    rcases List.mem_flatMap.mp hv with ⟨nic, hnic, hn⟩
    simp only [nicContrib] at hn
    rcases List.mem_flatMap.mp hn with ⟨s, hsmem, hml⟩
    cases hp : parseIPv4 (beforeSlash s) <;> simp only [hp] at hml
    · cases hml
    · rename_i ip4
      rw [containContrib_self cfg.bridges ip4 (vmUsedIP vm nic s) b hb hnodup] at hml
      cases hq : parseCIDRv4 b.subnet <;> simp only [hq] at hml
      · cases hml
      · rename_i ipnet
        by_cases hc : ipInNet ip4 ipnet = true
        · rw [if_pos hc] at hml
          rw [List.mem_singleton.mp hml] at hsrc hip
          exact ⟨hsrc.symm, vm, hvm, nic, hnic, s, hsmem, hip, ip4, ipnet, hp, rfl, hc⟩
        · rw [if_neg hc] at hml
          cases hml
  · rintro ⟨rfl, vm, hvm, nic, hnic, s, hsmem, hip, ip4, ipnet, hp, hq, hc⟩
    refine ⟨vmUsedIP vm nic s, ?_, rfl, hip⟩
    simp only [vmContrib]
    refine List.mem_flatMap.mpr ⟨vm, hvm, ?_⟩
    refine List.mem_flatMap.mpr ⟨nic, hnic, ?_⟩
    simp only [nicContrib]
    refine List.mem_flatMap.mpr ⟨s, hsmem, ?_⟩
    simp only [hp]
    rw [containContrib_self cfg.bridges ip4 (vmUsedIP vm nic s) b hb hnodup]
    simp only [hq]
    rw [if_pos hc]
    exact List.mem_singleton_self _

theorem mem_rawEntry_iff (cfg : Config) (leases : List Lease) (vms : List VMView)
    (b : BridgeConfig) (hb : b ∈ cfg.bridges)
    (hnodup : (cfg.bridges.map (·.name)).Nodup) (src ip : String) :
    (∃ u ∈ rawEntry cfg leases vms b, u.source = src ∧ u.ip = ip) ↔
      ((src = "gateway" ∧ ¬ b.gatewayIP = "" ∧ b.gatewayIP = ip) ∨
       (src = "forward" ∧ ∃ f ∈ b.forwards, ¬ f.intIP = "" ∧ f.intIP = ip) ∨
       (src = "dhcp" ∧ ∃ l ∈ leases, l.ip = ip ∧ ∃ ip4 ipnet,
         parseIPv4 l.ip = some ip4 ∧ parseCIDRv4 b.subnet = some ipnet ∧
           ipInNet ip4 ipnet = true) ∨
       (src = "vm" ∧ ∃ vm ∈ vms, ∃ nic ∈ vm.nics, ∃ s ∈ nic.ips,
         beforeSlash s = ip ∧ ∃ ip4 ipnet,
           parseIPv4 (beforeSlash s) = some ip4 ∧
             parseCIDRv4 b.subnet = some ipnet ∧ ipInNet ip4 ipnet = true)) := by
  constructor
  · rintro ⟨u, hu, hp⟩
    simp only [rawEntry, List.append_assoc, List.mem_append] at hu
    rcases hu with hu | hu | hu
    · rcases (initEntry_pair_iff b src ip).mp ⟨u, hu, hp⟩ with h | h
      · exact Or.inl h
      · exact Or.inr (Or.inl h)
    · exact Or.inr (Or.inr (Or.inl
        ((leaseRaw_pair_iff cfg leases b hb hnodup src ip).mp ⟨u, hu, hp⟩)))
    · exact Or.inr (Or.inr (Or.inr
        ((vmRaw_pair_iff cfg vms b hb hnodup src ip).mp ⟨u, hu, hp⟩)))
  · rintro (h | h | h | h)
    · obtain ⟨u, hu, hp⟩ := (initEntry_pair_iff b src ip).mpr (Or.inl h)
      exact ⟨u, by simp only [rawEntry, List.append_assoc, List.mem_append]; exact Or.inl hu, hp⟩
    · obtain ⟨u, hu, hp⟩ := (initEntry_pair_iff b src ip).mpr (Or.inr h)
      exact ⟨u, by simp only [rawEntry, List.append_assoc, List.mem_append]; exact Or.inl hu, hp⟩
    · obtain ⟨u, hu, hp⟩ := (leaseRaw_pair_iff cfg leases b hb hnodup src ip).mpr h
      exact ⟨u, by simp only [rawEntry, List.append_assoc, List.mem_append]
                   exact Or.inr (Or.inl hu), hp⟩
    · obtain ⟨u, hu, hp⟩ := (vmRaw_pair_iff cfg vms b hb hnodup src ip).mpr h
      exact ⟨u, by simp only [rawEntry, List.append_assoc, List.mem_append]
                   exact Or.inr (Or.inr hu), hp⟩

end PNAT

namespace PNAT

/-- C8 (amended): for every bridge (bridge names unique), the derived
IP-usage view holds exactly one entry, carrying the bridge's name and
subnet; its list is sorted by address text, holds no two entries with the
same (source, address) pair, and a (source, address) pair occurs in it iff
the address is non-empty and it is the bridge's gateway (source
"gateway"), the internal address of *any* forward — enabled or not —
(source "forward"), a parseable lease address inside the bridge's subnet
(source "dhcp"), or an externally reported NIC address (text before any
slash) inside that subnet (source "vm"). -/
theorem buildUsedIPs_characterization (cfg : Config) (leases : List Lease)
    (vms : List VMView) (hnodup : (cfg.bridges.map (·.name)).Nodup) :
    ∀ b ∈ cfg.bridges, ∃ entry ∈ buildUsedIPs cfg leases vms,
      entry.bridge = b.name ∧ entry.subnet = b.subnet ∧
      List.Pairwise ipLe entry.ips ∧
      (entry.ips.map (fun u => (u.source, u.ip))).Nodup ∧
      ∀ src ip : String,
        ((∃ u ∈ entry.ips, u.source = src ∧ u.ip = ip) ↔
          (¬ ip = "" ∧
            ((src = "gateway" ∧ b.gatewayIP = ip) ∨
             (src = "forward" ∧ ∃ f ∈ b.forwards, f.intIP = ip) ∨
             (src = "dhcp" ∧ ∃ l ∈ leases, l.ip = ip ∧ ∃ ip4 ipnet,
               parseIPv4 l.ip = some ip4 ∧ parseCIDRv4 b.subnet = some ipnet ∧
                 ipInNet ip4 ipnet = true) ∨
             (src = "vm" ∧ ∃ vm ∈ vms, ∃ nic ∈ vm.nics, ∃ s ∈ nic.ips,
               beforeSlash s = ip ∧ ∃ ip4 ipnet,
                 parseIPv4 (beforeSlash s) = some ip4 ∧
                   parseCIDRv4 b.subnet = some ipnet ∧
                     ipInNet ip4 ipnet = true)))) := by
  intro b hb
  have hperm := List.perm_insertionSort ipLe (dedupGo [] (rawEntry cfg leases vms b))
  have hkeyinj : ∀ u ∈ rawEntry cfg leases vms b, ∀ v ∈ rawEntry cfg leases vms b,
      u.source ++ "|" ++ u.ip = v.source ++ "|" ++ v.ip →
        u.source = v.source ∧ u.ip = v.ip :=
    fun u hu v hv he =>
      usedKey_inj u.source u.ip v.source v.ip
        (rawEntry_sources cfg leases vms b u hu)
        (rawEntry_sources cfg leases vms b v hv) he
  refine ⟨⟨b.name, b.subnet, sortIPs (dedupGo [] (rawEntry cfg leases vms b))⟩,
    buildUsedIPs_mem cfg leases vms hnodup b hb, rfl, rfl, ?_, ?_, ?_⟩
  · exact List.sorted_insertionSort ipLe _
  · have hkeys := (dedupGo_keys (rawEntry cfg leases vms b) []).1
    refine ((hperm.map (fun u : UsedIP => (u.source, u.ip))).nodup_iff).mpr ?_
    have hrw : (dedupGo [] (rawEntry cfg leases vms b)).map
          (fun u => u.source ++ "|" ++ u.ip) =
        ((dedupGo [] (rawEntry cfg leases vms b)).map
          (fun u => (u.source, u.ip))).map (fun p => p.1 ++ "|" ++ p.2) := by
      rw [List.map_map]
      rfl
    rw [hrw] at hkeys
    exact List.Nodup.of_map _ hkeys
  · intro src ip
    have hsort : (∃ u ∈ sortIPs (dedupGo [] (rawEntry cfg leases vms b)),
        u.source = src ∧ u.ip = ip) ↔
        (∃ u ∈ dedupGo [] (rawEntry cfg leases vms b), u.source = src ∧ u.ip = ip) := by
      constructor
      · rintro ⟨u, hu, hp⟩
        exact ⟨u, hperm.mem_iff.mp hu, hp⟩
      · rintro ⟨u, hu, hp⟩
        exact ⟨u, hperm.mem_iff.mpr hu, hp⟩
    rw [hsort, dedupGo_pair_mem_iff src ip (rawEntry cfg leases vms b) [] hkeyinj]
    simp only [List.not_mem_nil, not_false_eq_true, true_and]
    rw [mem_rawEntry_iff cfg leases vms b hb hnodup src ip]
    constructor
    · rintro ⟨hip, h⟩
      refine ⟨hip, ?_⟩
      rcases h with ⟨rfl, _, hgip⟩ | ⟨rfl, f, hf, _, hfip⟩ | h | h
      · exact Or.inl ⟨rfl, hgip⟩
      · exact Or.inr (Or.inl ⟨rfl, f, hf, hfip⟩)
      · exact Or.inr (Or.inr (Or.inl h))
      · exact Or.inr (Or.inr (Or.inr h))
    · rintro ⟨hip, h⟩
      refine ⟨hip, ?_⟩
      rcases h with ⟨rfl, hgip⟩ | ⟨rfl, f, hf, hfip⟩ | h | h
      · exact Or.inl ⟨rfl, fun h0 => hip (hgip.symm.trans h0), hgip⟩
      · exact Or.inr (Or.inl ⟨rfl, f, hf, fun h0 => hip (hfip.symm.trans h0), hfip⟩)
      · exact Or.inr (Or.inr (Or.inl h))
      · exact Or.inr (Or.inr (Or.inr h))

/-- A model whose single bridge carries one *disabled* forward. -/
def cfgC8 : Config :=
  ⟨"eth0", [⟨"vmbr1", "10.0.0.0/24", "10.0.0.1", false, none,
    [⟨"d1", "tcp", 8080, "10.0.0.50", 80, "", false⟩]⟩], "/etc/pnat/pnat.json"⟩

/-- C8 counterexample: with a single disabled forward, the view still
lists its internal address with source "forward" — the code collects the
internal address of every forward, enabled or not, so the view does not
contain exactly the enabled forwards' addresses. -/
theorem buildUsedIPs_lists_disabled_forward :
    (cfgC8.bridges.all fun b => b.forwards.all fun f => !f.enabled) = true ∧
    buildUsedIPs cfgC8 [] [] =
      [⟨"vmbr1", "10.0.0.0/24", [⟨"10.0.0.1", "gateway", 0, "", ""⟩,
        ⟨"10.0.0.50", "forward", 0, "", ""⟩]⟩] := by
  constructor
  · decide
  · decide

/-- Witness for C8 at a concrete model (one bridge, one lease inside the
subnet, no VMs). -/
theorem buildUsedIPs_characterization_witness :
    ((cfgC8.bridges.map (·.name)).Nodup) ∧
    (∀ b ∈ cfgC8.bridges, ∃ entry ∈ buildUsedIPs cfgC8 [⟨"123", "aa:bb", "10.0.0.7", "h"⟩] [],
      entry.bridge = b.name ∧ entry.subnet = b.subnet ∧
      List.Pairwise ipLe entry.ips ∧
      (entry.ips.map (fun u => (u.source, u.ip))).Nodup ∧
      ∀ src ip : String,
        ((∃ u ∈ entry.ips, u.source = src ∧ u.ip = ip) ↔
          (¬ ip = "" ∧
            ((src = "gateway" ∧ b.gatewayIP = ip) ∨
             (src = "forward" ∧ ∃ f ∈ b.forwards, f.intIP = ip) ∨
             (src = "dhcp" ∧ ∃ l ∈ [(⟨"123", "aa:bb", "10.0.0.7", "h"⟩ : Lease)],
               l.ip = ip ∧ ∃ ip4 ipnet,
               parseIPv4 l.ip = some ip4 ∧ parseCIDRv4 b.subnet = some ipnet ∧
                 ipInNet ip4 ipnet = true) ∨
             (src = "vm" ∧ ∃ vm ∈ ([] : List VMView), ∃ nic ∈ vm.nics, ∃ s ∈ nic.ips,
               beforeSlash s = ip ∧ ∃ ip4 ipnet,
                 parseIPv4 (beforeSlash s) = some ip4 ∧
                   parseCIDRv4 b.subnet = some ipnet ∧
                     ipInNet ip4 ipnet = true))))) :=
  ⟨by decide,
   buildUsedIPs_characterization cfgC8 [⟨"123", "aa:bb", "10.0.0.7", "h"⟩] [] (by decide)⟩

end PNAT
